import Mathlib

/-!
# Verification of the crab monitor (`lib/crab/monitor.py`)

This file gives a shallow embedding of the crab monitor's data model and
operations and proves properties of them.

Conventions of the embedding:

* Python dicts keyed by job id become association lists `List (Nat × α)`
  (`dlookup` / `dinsert` / `derase`); a well-formed dict has no duplicate
  keys (`dnodup`).
* Instants and durations (`datetime` values and `timedelta`s) are modelled
  as natural numbers; the only operations the monitor performs on them are
  addition and order comparison, which the model preserves.
* Code that can raise `KeyError` (indexing a dict with a missing key)
  returns `Option` (`none` = the exception); code that can raise
  `JobDeleted` returns `Except JobDeleted`.
* The `print` diagnostics have no observable effect on the monitor state
  and are not modelled; `_write_warning` calls (which go through the
  store) are modelled by returning the list of `(jobid, status)` warnings
  written during a pass.
-/

namespace Crab

/-- Status categories used by `CrabStatus`'s classification predicates
(trivial / ok / warning / error). -/
inductive StatusCat
  | trivial
  | ok
  | warning
  | error
  deriving DecidableEq, Repr

/-- Modelled from the spec: the status codes of `CrabStatus`
(defined in `lib/crab/__init__.py`, which is not part of the sources
here).  The spec names the codes SUCCESS, FAIL(URE), OK, WARNING, LATE,
MISSED and TIMEOUT and requires every code to fall in exactly one of the
four categories: SUCCESS is the "ok" terminal outcome, FAIL the "error"
terminal outcome, OK is a trivial (routine, non-actionable) signal,
WARNING and LATE are "warning"-category and MISSED / TIMEOUT are
synthesized escalations (error-category). -/
inductive CrabStatus
  | SUCCESS
  | FAIL
  | OK
  | WARNING
  | LATE
  | MISSED
  | TIMEOUT
  deriving DecidableEq, Repr

/-- Modelled from the spec: classification of each status code into
exactly one category (spec section 4.2). -/
def statusCat : CrabStatus → StatusCat
  | .SUCCESS => .ok
  | .FAIL => .error
  | .OK => .trivial
  | .WARNING => .warning
  | .LATE => .warning
  | .MISSED => .error
  | .TIMEOUT => .error

/-- Modelled from the spec: `CrabStatus.is_trivial`. -/
def is_trivial (s : CrabStatus) : Bool := statusCat s = .trivial

/-- Modelled from the spec: `CrabStatus.is_ok`. -/
def is_ok (s : CrabStatus) : Bool := statusCat s = .ok

/-- Modelled from the spec: `CrabStatus.is_warning`. -/
def is_warning (s : CrabStatus) : Bool := statusCat s = .warning

/-- Modelled from the spec: `CrabStatus.is_error`. -/
def is_error (s : CrabStatus) : Bool := statusCat s = .error

/-- Modelled from the spec: the event types of `CrabEvent`
(`lib/crab/__init__.py`, not part of the sources here). -/
inductive CrabEventType
  | START
  | WARN
  | FINISH
  deriving DecidableEq, Repr

/-- An event row as the monitor consumes it: id, job id, type, optional
status code and (already parsed) UTC timestamp. -/
structure CrabEvent where
  id : Nat
  jobid : Nat
  type : CrabEventType
  status : Option CrabStatus
  datetime : Nat
  deriving DecidableEq, Repr

/-- The fields of a `get_job_info` row that the monitor reads:
`installed`, `deleted`, `time` and `timezone`. -/
structure JobInfo where
  installed : Nat
  deleted : Option Nat
  time : Option String
  timezone : Option String
  deriving DecidableEq, Repr

/-- A row of the `get_jobs` listing as the monitor reads it
(`job['id']` and `job['installed']`). -/
structure JobSummary where
  id : Nat
  installed : Nat
  deriving DecidableEq, Repr

/-- Modelled from the spec: a parsed `CrabSchedule`
(`lib/crab/schedule.py`, not part of the sources here) wraps a recurrence
specification and answers whether a given instant matches
(`CrabSchedule.match` in the source; `match` is a reserved word here). -/
structure CrabSchedule where
  matchesAt : Nat → Bool

/-- One entry of `self.status`: the per-job record dict.  `reliability`
is `Option Nat` because the Python dict is created without that key;
`none` models the absent key. -/
structure JobRecord where
  status : Option CrabStatus
  running : Bool
  history : List CrabStatus
  installed : Nat
  scheduled : Bool
  reliability : Option Nat
  deriving DecidableEq, Repr

/-- One entry of `self.config` (graceperiod and timeout, in seconds). -/
structure JobConfig where
  graceperiod : Nat
  timeout : Nat
  deriving DecidableEq, Repr

/-! ## Dict operations (Python dict as association list) -/

/-- Dict lookup: `m[k]` / `m.get(k)`. -/
def dlookup {α : Type} (m : List (Nat × α)) (k : Nat) : Option α :=
  (m.find? (fun p => p.1 = k)).map (fun p => p.2)

/-- Dict assignment `m[k] = v`: replaces the value in place if the key is
present, otherwise appends the new binding. -/
def dinsert {α : Type} (m : List (Nat × α)) (k : Nat) (v : α) : List (Nat × α) :=
  if m.any (fun p => p.1 = k) then
    m.map (fun p => if p.1 = k then (k, v) else p)
  else m ++ [(k, v)]

/-- Dict deletion `del m[k]`. -/
def derase {α : Type} (m : List (Nat × α)) (k : Nat) : List (Nat × α) :=
  m.filter (fun p => p.1 ≠ k)

/-- The key list of a dict (`m.keys()`). -/
def dkeys {α : Type} (m : List (Nat × α)) : List Nat :=
  m.map (fun p => p.1)

/-- Well-formedness of a dict: no duplicate keys (automatic for a Python
dict). -/
def dnodup {α : Type} (m : List (Nat × α)) : Prop :=
  (dkeys m).Nodup

/-! ## The monitor state -/

/-- The instance data of `CrabMonitor` that the monitor thread reads and
writes (`__init__`). -/
structure CrabMonitor where
  sched : List (Nat × CrabSchedule)
  status : List (Nat × JobRecord)
  config : List (Nat × JobConfig)
  last_start : List (Nat × Nat)
  timeout : List (Nat × Nat)
  miss_timeout : List (Nat × Nat)
  max_startid : Nat
  max_warnid : Nat
  max_finishid : Nat
  num_warning : Nat
  num_error : Nat
  status_ready : Bool

/-- The freshly constructed monitor (`CrabMonitor.__init__`). -/
def initMonitor : CrabMonitor :=
  { sched := [], status := [], config := [], last_start := [],
    timeout := [], miss_timeout := [],
    max_startid := 0, max_warnid := 0, max_finishid := 0,
    num_warning := 0, num_error := 0, status_ready := false }

/-- `HISTORY_COUNT`: capacity of the per-job history buffer. -/
def HISTORY_COUNT : Nat := 10

/-! ## Monitor operations (translated from `lib/crab/monitor.py`) -/

/-- `_update_max_id_values`: advance the three watermarks if the event
outdates them (monitor.py lines 241-253).  The three if-statements of the
source each read and write only their own watermark field, so they are
rendered as three independent field updates. -/
def update_max_id_values (e : CrabEvent) (s : CrabMonitor) : CrabMonitor :=
  { s with
      max_startid := if e.type = CrabEventType.START ∧ e.id > s.max_startid
                     then e.id else s.max_startid,
      max_warnid := if e.type = CrabEventType.WARN ∧ e.id > s.max_warnid
                    then e.id else s.max_warnid,
      max_finishid := if e.type = CrabEventType.FINISH ∧ e.id > s.max_finishid
                      then e.id else s.max_finishid }

/-- The status-code paragraph of `_process_event` (monitor.py lines
266-289): the precedence rule deciding whether the event's status code
overwrites the job's current status, followed by the history append for
any non-trivial status (evicting the oldest entry at capacity). -/
def apply_event_status (rec0 : JobRecord) : Option CrabStatus → JobRecord
  | none => rec0
  | some st =>
    let recA :=
      if is_trivial st then
        match rec0.status with
        | none => { rec0 with status := some st }
        | some p => if is_ok p then { rec0 with status := some st } else rec0
      else if is_warning st then
        match rec0.status with
        | none => { rec0 with status := some st }
        | some p => if is_error p then rec0 else { rec0 with status := some st }
      else
        -- Always set success / failure status (the remaining options).
        { rec0 with status := some st }
    if is_trivial st then recA
    else
      let h := if recA.history.length ≥ HISTORY_COUNT then
                 recA.history.drop 1 else recA.history
      { recA with history := h ++ [st] }

/-- `_process_event` (monitor.py lines 255-302).  Returns `none` when the
Python code would raise a `KeyError` (the job's `status` record missing,
or its `config` entry missing on a START event). -/
def process_event (jobid : Nat) (e : CrabEvent) (s : CrabMonitor) :
    Option CrabMonitor := do
  let rec0 ← dlookup s.status jobid
  -- Status-code branch (lines 266-289).
  let rec1 := apply_event_status rec0 e.status
  -- START branch (lines 291-296); `self.config[jobid]['timeout']` raises
  -- KeyError when the config entry is missing.
  let startRes ←
    (if e.type = CrabEventType.START then do
       let cfg ← dlookup s.config jobid
       pure ({ rec1 with running := true },
             dinsert s.last_start jobid e.datetime,
             dinsert s.timeout jobid (e.datetime + cfg.timeout),
             derase s.miss_timeout jobid)
     else
       pure (rec1, s.last_start, s.timeout, s.miss_timeout) : Option _)
  let (rec2, ls2, to2, mt2) := startRes
  -- FINISH / explicit TIMEOUT branch (lines 298-302).
  let (rec3, to3) :=
    if e.type = CrabEventType.FINISH ∨ e.status = some CrabStatus.TIMEOUT then
      ({ rec2 with running := false }, derase to2 jobid)
    else (rec2, to2)
  pure { s with status := dinsert s.status jobid rec3,
                last_start := ls2, timeout := to3, miss_timeout := mt2 }

/-- The reliability formula of `_compute_reliability`: 0 for an empty
history, otherwise `100 * count(SUCCESS) / len` with integer division. -/
def reliability_of (h : List CrabStatus) : Nat :=
  if h.length = 0 then 0
  else 100 * h.count CrabStatus.SUCCESS / h.length

/-- `_compute_reliability` (monitor.py lines 304-315); `none` models the
`KeyError` when the job's record is missing. -/
def compute_reliability (jobid : Nat) (s : CrabMonitor) : Option CrabMonitor := do
  let rec0 ← dlookup s.status jobid
  let rec1 := { rec0 with reliability := some (reliability_of rec0.history) }
  pure { s with status := dinsert s.status jobid rec1 }

/-- The `if jobinfo is None: jobinfo = self.store.get_job_info(id_)`
defaulting at the top of `_schedule_job` (monitor.py lines 208-209). -/
def effective_jobinfo (getInfo : Nat → Option JobInfo) (id_ : Nat) :
    Option JobInfo → Option JobInfo
  | none => getInfo id_
  | some j => some j

/-- `_schedule_job` (monitor.py lines 200-221).  The schedule parser
(`CrabSchedule.__init__`, not part of the sources here) is passed in as
`parse`; a `.error` result models the raised `CrabError`.  On a parse
failure the `sched` dict is left untouched (in particular, a previously
stored schedule for the job survives) and `scheduled` stays `False`;
`scheduled` is set `True` only in the no-exception (`else:`) path. -/
def schedule_job (getInfo : Nat → Option JobInfo)
    (parse : String → Option String → Except Unit CrabSchedule)
    (id_ : Nat) (jobinfo? : Option JobInfo) (s : CrabMonitor) :
    Option CrabMonitor := do
  let jobinfo := effective_jobinfo getInfo id_ jobinfo?
  let rec0 ← dlookup s.status id_
  let s1 := { s with status := dinsert s.status id_ ({ rec0 with scheduled := false }) }
  match jobinfo with
  | some info =>
    match info.time with
    | some t =>
      match parse t info.timezone with
      | .error _ => pure s1
      | .ok cs =>
        let rec1 := { rec0 with scheduled := true }
        pure { s1 with sched := dinsert s1.sched id_ cs,
                       status := dinsert s1.status id_ rec1 }
    | none => pure s1
  | none => pure s1

/-- The `JobDeleted` exception. -/
inductive JobDeleted
  | deleted
  deriving DecidableEq, Repr

/-- `_initialize_job` (monitor.py lines 183-198): raises `JobDeleted`
(`.error`) when the job info is absent or carries a deleted marker;
otherwise creates the record (the dict literal has no `reliability` key,
modelled as `reliability := none`), runs `_schedule_job` and installs the
fixed config.  The inner `schedule_job` cannot fail here because the
record was just inserted; its unreachable `none` case is mapped to
`.error`. -/
def initialize_job (getInfo : Nat → Option JobInfo)
    (parse : String → Option String → Except Unit CrabSchedule)
    (id_ : Nat) (s : CrabMonitor) : Except JobDeleted CrabMonitor :=
  match getInfo id_ with
  | none => .error JobDeleted.deleted
  | some info =>
    if info.deleted ≠ none then .error JobDeleted.deleted
    else
      let rec0 : JobRecord :=
        { status := none, running := false, history := [],
          installed := info.installed, scheduled := false, reliability := none }
      let s1 := { s with status := dinsert s.status id_ rec0 }
      match schedule_job getInfo parse id_ (some info) s1 with
      | none => .error JobDeleted.deleted
      | some s2 =>
        let cfg : JobConfig := { graceperiod := 120, timeout := 300 }
        .ok { s2 with config := dinsert s2.config id_ cfg }

/-- `_remove_job` (monitor.py lines 223-239). -/
def remove_job (jobid : Nat) (s : CrabMonitor) : CrabMonitor :=
  { s with status := derase s.status jobid,
           config := derase s.config jobid,
           sched := derase s.sched jobid,
           last_start := derase s.last_start jobid,
           timeout := derase s.timeout jobid,
           miss_timeout := derase s.miss_timeout jobid }

/-- The lateness condition of the reconciliation pass (line 134-135):
no prior start recorded, or `last_start[id] + graceperiod < now`. -/
def late_condition (lastStart : Option Nat) (graceperiod now : Nat) : Bool :=
  match lastStart with
  | none => true
  | some ls => decide (ls + graceperiod < now)

/-- One iteration of the lateness loop (`for id in self.sched`, monitor.py
lines 132-138), acting on an accumulator of monitor state plus the
warnings written through the store so far. -/
def lateness_body (now : Nat)
    (acc : CrabMonitor × List (Nat × CrabStatus)) (p : Nat × CrabSchedule) :
    Option (CrabMonitor × List (Nat × CrabStatus)) :=
  if p.2.matchesAt now then do
    let cfg ← dlookup acc.1.config p.1
    if late_condition (dlookup acc.1.last_start p.1) cfg.graceperiod now then
      let st1 := { acc.1 with miss_timeout := dinsert acc.1.miss_timeout p.1 (now + cfg.graceperiod) }
      pure (st1, acc.2 ++ [(p.1, CrabStatus.LATE)])
    else
      pure acc
  else
    pure acc

/-- The lateness check of the reconciliation pass (monitor.py lines
131-138): iterate over the scheduled jobs, writing a LATE warning through
the store and arming `miss_timeout` for each matching job without a
recent start. -/
def lateness_check (now : Nat) (s : CrabMonitor) :
    Option (CrabMonitor × List (Nat × CrabStatus)) :=
  s.sched.foldlM (lateness_body now) (s, [])

/-- One deadline-expiry scan (monitor.py lines 173-176 and 178-181):
iterate over a snapshot of the dict's entries, emitting a warning for and
deleting every entry whose deadline has passed.  The `none` case of the
lookup is unreachable for a well-formed dict (each key is visited once
and only that key is deleted at its visit). -/
def expire_deadlines (now : Nat) (m : List (Nat × Nat)) :
    List (Nat × Nat) × List Nat :=
  m.foldl
    (fun acc p =>
      match dlookup acc.1 p.1 with
      | some d => if d < now then (derase acc.1 p.1, acc.2 ++ [p.1]) else acc
      | none => acc)
    (m, [])

/-- The deadline-expiry step of the poll cycle (monitor.py lines
170-181): the `miss_timeout` scan writes MISSED warnings, then the
`timeout` scan writes TIMEOUT warnings. -/
def check_timeouts (now : Nat) (s : CrabMonitor) :
    CrabMonitor × List (Nat × CrabStatus) :=
  let missRes := expire_deadlines now s.miss_timeout
  let toRes := expire_deadlines now s.timeout
  ({ s with miss_timeout := missRes.1, timeout := toRes.1 },
   missRes.2.map (fun i => (i, CrabStatus.MISSED)) ++
     toRes.2.map (fun i => (i, CrabStatus.TIMEOUT)))

/-- One event of the steady-state poll loop (monitor.py lines 92-107):
advance the watermarks, initialize the job if unseen (a `JobDeleted`
raised there is swallowed: `except JobDeleted: pass`), then process the
event and recompute reliability. -/
def poll_event_step (getInfo : Nat → Option JobInfo)
    (parse : String → Option String → Except Unit CrabSchedule)
    (s : CrabMonitor) (e : CrabEvent) : Option CrabMonitor :=
  let s1 := update_max_id_values e s
  match (if dlookup s1.status e.jobid = none then
           initialize_job getInfo parse e.jobid s1
         else .ok s1) with
  | .error _ => some s1
  | .ok s2 => do
    let s3 ← process_event e.jobid e s2
    compute_reliability e.jobid s3

/-- Event ingestion as the poll loop performs it for a known job
(monitor.py lines 100-101): `_process_event` followed immediately by
`_compute_reliability`. -/
def ingest_event (jobid : Nat) (e : CrabEvent) (s : CrabMonitor) :
    Option CrabMonitor := do
  let s1 ← process_event jobid e s
  compute_reliability jobid s1

/-- Ingestion of a sequence of events for one job. -/
def ingest_events (jobid : Nat) (es : List CrabEvent) (s : CrabMonitor) :
    Option CrabMonitor :=
  es.foldlM (fun st e => ingest_event jobid e st) s

/-- One job of the initial bulk load (monitor.py lines 61-79): initialize
the job (a `JobDeleted` is caught: log and continue), replay its recent
events oldest-first through the steady-state ingestion path, then compute
reliability once. -/
def bulk_load_job (getInfo : Nat → Option JobInfo)
    (parse : String → Option String → Except Unit CrabSchedule)
    (getEvents : Nat → List CrabEvent)
    (s : CrabMonitor) (jobid : Nat) : Option CrabMonitor :=
  match initialize_job getInfo parse jobid s with
  | .error _ => some s
  | .ok s1 => do
    let s2 ← (getEvents jobid).reverse.foldlM
               (fun st e => process_event jobid e (update_max_id_values e st)) s1
    compute_reliability jobid s2

/-- The initial bulk load over the job listing (monitor.py lines 59-79).
`getEvents` stands for `get_job_events(jobid, 4 * HISTORY_COUNT)`, which
returns the events newest-first. -/
def bulk_load (getInfo : Nat → Option JobInfo)
    (parse : String → Option String → Except Unit CrabSchedule)
    (getEvents : Nat → List CrabEvent)
    (jobids : List Nat) (s : CrabMonitor) : Option CrabMonitor :=
  jobids.foldlM (fun st id => bulk_load_job getInfo parse getEvents st id) s

/-- One job of the reconciliation pass's job-set diff (monitor.py lines
143-162), acting on the accumulator of still-unseen tracked ids and the
monitor state.  For a tracked id whose installed timestamp advanced, the
schedule is re-derived and the cached timestamp updated; for an untracked
id, the job is initialized, a `JobDeleted` being caught (log and skip). -/
def reconcile_job_step (getInfo : Nat → Option JobInfo)
    (parse : String → Option String → Except Unit CrabSchedule)
    (acc : List Nat × CrabMonitor) (job : JobSummary) :
    Option (List Nat × CrabMonitor) :=
  let cur := acc.1
  let st := acc.2
  if job.id ∈ cur then do
    let cur' := cur.erase job.id
    let rec0 ← dlookup st.status job.id
    if rec0.installed < job.installed then do
      let st1 ← schedule_job getInfo parse job.id none st
      let rec1 ← dlookup st1.status job.id
      let rec2 := { rec1 with installed := job.installed }
      pure (cur', { st1 with status := dinsert st1.status job.id rec2 })
    else
      pure (cur', st)
  else
    match initialize_job getInfo parse job.id st with
    | .error _ => pure (cur, st)
    | .ok st1 => pure (cur, st1)

/-- `get_job_status` (monitor.py lines 324-331): blocks on `status_ready`
before returning the status table; `none` models the blocked call. -/
def get_job_status (s : CrabMonitor) : Option (List (Nat × JobRecord)) :=
  if s.status_ready then some s.status else none

/-- The value returned by `wait_for_event_since`. -/
structure WaitResult where
  startid : Nat
  warnid : Nat
  finishid : Nat
  status : List (Nat × JobRecord)
  numwarning : Nat
  numerror : Nat

/-- `wait_for_event_since` (monitor.py lines 333-351).  The random jitter
`random.randint(0, 20)` is passed in as `jitter`; the first component of
the result is the maximum time the call may block (`0` when a watermark
already exceeds the caller's ids, otherwise the `Condition.wait` bound
`timeout + jitter`), the second the returned dict. -/
def wait_for_event_since (s : CrabMonitor)
    (startid warnid finishid timeout jitter : Nat) : Nat × WaitResult :=
  let bound :=
    if s.max_startid > startid ∨ s.max_warnid > warnid ∨
        s.max_finishid > finishid then 0
    else timeout + jitter
  (bound,
   { startid := s.max_startid, warnid := s.max_warnid,
     finishid := s.max_finishid, status := s.status,
     numwarning := s.num_warning, numerror := s.num_error })

/-- The vanished-job condition of `_initialize_job`: the store does not
resolve the job id, or the info carries a deleted marker. -/
def vanished (getInfo : Nat → Option JobInfo) (id_ : Nat) : Prop :=
  match getInfo id_ with
  | none => True
  | some info => info.deleted ≠ none

instance (getInfo : Nat → Option JobInfo) (id_ : Nat) :
    Decidable (vanished getInfo id_) := by
  unfold vanished
  match getInfo id_ with
  | none => exact inferInstanceAs (Decidable True)
  | some info => exact inferInstanceAs (Decidable (info.deleted ≠ none))

/-! ## Dict lemmas -/

theorem dlookup_cons {α : Type} (p : Nat × α) (m : List (Nat × α)) (k : Nat) :
    dlookup (p :: m) k = if p.1 = k then some p.2 else dlookup m k := by
  by_cases h : p.1 = k <;> simp [dlookup, List.find?_cons, h]

theorem any_key_eq {α : Type} (m : List (Nat × α)) (k : Nat) :
    (m.any fun p => decide (p.1 = k)) = true ↔ k ∈ dkeys m := by
  simp [dkeys, List.any_eq_true, List.mem_map]

theorem dlookup_map_update_ne {α : Type} (m : List (Nat × α)) (k j : Nat) (v : α)
    (hjk : j ≠ k) :
    dlookup (m.map fun p => if p.1 = k then (k, v) else p) j = dlookup m j := by
  induction m with
  | nil => rfl
  | cons p m ih =>
    simp only [List.map_cons]
    rw [dlookup_cons, dlookup_cons]
    by_cases hp : p.1 = k
    · have h1 : ((if p.1 = k then (k, v) else p) : Nat × α).1 = k := by simp [hp]
      have h2 : ¬((if p.1 = k then (k, v) else p) : Nat × α).1 = j := by
        rw [h1]; exact fun hc => hjk hc.symm
      have h3 : ¬p.1 = j := by rw [hp]; exact fun hc => hjk hc.symm
      rw [if_neg h2, if_neg h3, ih]
    · have h1 : ((if p.1 = k then (k, v) else p) : Nat × α) = p := if_neg hp
      rw [h1, ih]

theorem dlookup_append {α : Type} (m₁ m₂ : List (Nat × α)) (k : Nat) :
    dlookup (m₁ ++ m₂) k =
      match dlookup m₁ k with
      | some v => some v
      | none => dlookup m₂ k := by
  induction m₁ with
  | nil => rfl
  | cons p m ih =>
    rw [List.cons_append, dlookup_cons, dlookup_cons]
    by_cases hp : p.1 = k
    · simp [hp]
    · simp only [if_neg hp]
      exact ih

theorem dlookup_none_of_not_mem {α : Type} {m : List (Nat × α)} {k : Nat}
    (h : k ∉ dkeys m) : dlookup m k = none := by
  induction m with
  | nil => rfl
  | cons p m ih =>
    rw [dlookup_cons]
    simp only [dkeys, List.map_cons, List.mem_cons] at h
    push_neg at h
    rw [if_neg (fun hc => h.1 hc.symm)]
    exact ih h.2

theorem dlookup_dinsert_self {α : Type} (m : List (Nat × α)) (k : Nat) (v : α) :
    dlookup (dinsert m k v) k = some v := by
  unfold dinsert
  split
  case isTrue h =>
    induction m with
    | nil => simp at h
    | cons p m ih =>
      simp only [List.map_cons]
      rw [dlookup_cons]
      by_cases hp : p.1 = k
      · simp [hp]
      · have h1 : ((if p.1 = k then (k, v) else p) : Nat × α) = p := if_neg hp
        rw [h1, if_neg hp]
        simp only [List.any_cons] at h
        rcases Bool.or_eq_true_iff.mp h with h1 | h2
        · exact absurd (of_decide_eq_true h1) hp
        · exact ih h2
  case isFalse h =>
    rw [dlookup_append]
    have : dlookup m k = none := by
      apply dlookup_none_of_not_mem
      intro hk
      exact h ((any_key_eq m k).mpr hk)
    rw [this]
    rw [dlookup_cons]
    simp [dlookup]

theorem dlookup_dinsert_ne {α : Type} (m : List (Nat × α)) (k j : Nat) (v : α)
    (hjk : j ≠ k) : dlookup (dinsert m k v) j = dlookup m j := by
  unfold dinsert
  split
  case isTrue h => exact dlookup_map_update_ne m k j v hjk
  case isFalse h =>
    rw [dlookup_append]
    match hm : dlookup m j with
    | some v' => rfl
    | none =>
      rw [dlookup_cons]
      have : ¬((k, v).1 = j) := fun hc => hjk (by simpa using hc.symm)
      simp [this, dlookup]

theorem dlookup_derase_self {α : Type} (m : List (Nat × α)) (k : Nat) :
    dlookup (derase m k) k = none := by
  induction m with
  | nil => rfl
  | cons p m ih =>
    simp only [derase, List.filter_cons] at ih ⊢
    by_cases hp : p.1 = k
    · simp only [hp]
      simpa using ih
    · have hd : (decide (p.1 ≠ k)) = true := by simp [hp]
      rw [hd]
      simp only [if_true]
      rw [dlookup_cons, if_neg hp]
      exact ih

theorem dlookup_derase_ne {α : Type} (m : List (Nat × α)) (k j : Nat)
    (hjk : j ≠ k) : dlookup (derase m k) j = dlookup m j := by
  induction m with
  | nil => rfl
  | cons p m ih =>
    simp only [derase, List.filter_cons] at ih ⊢
    by_cases hp : p.1 = k
    · have hpj : ¬p.1 = j := by rw [hp]; exact fun hc => hjk hc.symm
      simp only [hp]
      simp only [decide_not, decide_eq_true_eq]
      rw [dlookup_cons, if_neg hpj]
      simpa using ih
    · have hd : (decide (p.1 ≠ k)) = true := by simp [hp]
      rw [hd]
      simp only [if_true]
      rw [dlookup_cons, dlookup_cons]
      by_cases hpj : p.1 = j
      · simp [hpj]
      · rw [if_neg hpj, if_neg hpj]
        exact ih

theorem dkeys_map_snd {α : Type} (m : List (Nat × α)) (f : Nat × α → Nat × α)
    (hf : ∀ p, (f p).1 = p.1) : dkeys (m.map f) = dkeys m := by
  induction m with
  | nil => rfl
  | cons p m ih =>
    simp only [dkeys, List.map_cons] at ih ⊢
    rw [hf, ih]

theorem dnodup_dinsert {α : Type} (m : List (Nat × α)) (k : Nat) (v : α)
    (h : dnodup m) : dnodup (dinsert m k v) := by
  unfold dinsert
  split
  case isTrue hm =>
    have heq : dkeys (m.map fun p => if p.1 = k then (k, v) else p) = dkeys m := by
      apply dkeys_map_snd
      intro p
      by_cases hp : p.1 = k <;> simp [hp]
    unfold dnodup
    rw [heq]
    exact h
  case isFalse hm =>
    unfold dnodup at h ⊢
    unfold dkeys at h ⊢
    simp only [List.map_append, List.map_cons, List.map_nil]
    rw [List.nodup_append]
    refine ⟨h, List.nodup_singleton _, ?_⟩
    intro a ha hb
    simp only [List.mem_singleton] at hb
    exact hm ((any_key_eq m k).mpr (hb ▸ ha))

theorem dnodup_derase {α : Type} (m : List (Nat × α)) (k : Nat)
    (h : dnodup m) : dnodup (derase m k) := by
  unfold dnodup dkeys derase at *
  exact h.sublist (List.Sublist.map _ (List.filter_sublist m))

theorem dlookup_eq_of_mem {α : Type} {m : List (Nat × α)} {k : Nat} {v : α}
    (hn : dnodup m) (hm : (k, v) ∈ m) : dlookup m k = some v := by
  induction m with
  | nil => simp at hm
  | cons p m ih =>
    unfold dnodup dkeys at hn
    rw [List.map_cons, List.nodup_cons] at hn
    rw [dlookup_cons]
    rcases List.mem_cons.mp hm with h1 | h2
    · subst h1; simp
    · have hp : ¬p.1 = k := by
        intro hk
        exact hn.1 (hk ▸ List.mem_map_of_mem Prod.fst h2)
      rw [if_neg hp]
      exact ih hn.2 h2

theorem mem_dkeys_of_dlookup {α : Type} {m : List (Nat × α)} {k : Nat} {v : α}
    (h : dlookup m k = some v) : k ∈ dkeys m := by
  by_contra hk
  rw [dlookup_none_of_not_mem hk] at h
  exact Option.noConfusion h

/-! ## Characterization of `process_event` -/

/-- The record `_process_event` leaves in `self.status[jobid]`. -/
def event_record (rec0 : JobRecord) (e : CrabEvent) : JobRecord :=
  let rec1 := apply_event_status rec0 e.status
  let rec2 := if e.type = CrabEventType.START then { rec1 with running := true } else rec1
  if e.type = CrabEventType.FINISH ∨ e.status = some CrabStatus.TIMEOUT then
    { rec2 with running := false } else rec2

theorem apply_event_status_status (rec0 : JobRecord) (st : CrabStatus) :
    (apply_event_status rec0 (some st)).status =
      (if is_trivial st then
        match rec0.status with
        | none => some st
        | some p => if is_ok p then some st else some p
      else if is_warning st then
        match rec0.status with
        | none => some st
        | some p => if is_error p then some p else some st
      else some st) := by
  unfold apply_event_status
  cases hp : rec0.status with
  | none =>
    by_cases ht : is_trivial st <;> by_cases hw : is_warning st <;> simp [ht, hw, hp]
  | some p =>
    by_cases ht : is_trivial st <;> by_cases hw : is_warning st <;>
      by_cases ho : is_ok p <;> by_cases he : is_error p <;> simp [ht, hw, ho, he, hp]

theorem apply_event_status_history (rec0 : JobRecord) (st : CrabStatus) :
    (apply_event_status rec0 (some st)).history =
      (if is_trivial st then rec0.history
       else (if rec0.history.length ≥ HISTORY_COUNT then rec0.history.drop 1
             else rec0.history) ++ [st]) := by
  unfold apply_event_status
  cases hp : rec0.status with
  | none =>
    by_cases ht : is_trivial st <;> by_cases hw : is_warning st <;> simp [ht, hw, hp]
  | some p =>
    by_cases ht : is_trivial st <;> by_cases hw : is_warning st <;>
      by_cases ho : is_ok p <;> by_cases he : is_error p <;> simp [ht, hw, ho, he, hp]

theorem apply_event_status_running (rec0 : JobRecord) (st? : Option CrabStatus) :
    (apply_event_status rec0 st?).running = rec0.running := by
  cases st? with
  | none => rfl
  | some st =>
    unfold apply_event_status
    cases hp : rec0.status with
    | none =>
      by_cases ht : is_trivial st <;> by_cases hw : is_warning st <;> simp [ht, hw, hp]
    | some p =>
      by_cases ht : is_trivial st <;> by_cases hw : is_warning st <;>
        by_cases ho : is_ok p <;> by_cases he : is_error p <;> simp [ht, hw, ho, he, hp]

theorem apply_event_status_reliability (rec0 : JobRecord) (st? : Option CrabStatus) :
    (apply_event_status rec0 st?).reliability = rec0.reliability := by
  cases st? with
  | none => rfl
  | some st =>
    unfold apply_event_status
    cases hp : rec0.status with
    | none =>
      by_cases ht : is_trivial st <;> by_cases hw : is_warning st <;> simp [ht, hw, hp]
    | some p =>
      by_cases ht : is_trivial st <;> by_cases hw : is_warning st <;>
        by_cases ho : is_ok p <;> by_cases he : is_error p <;> simp [ht, hw, ho, he, hp]

theorem event_record_history (rec0 : JobRecord) (e : CrabEvent) :
    (event_record rec0 e).history = (apply_event_status rec0 e.status).history := by
  obtain ⟨eid, ejob, ty, st?, dt⟩ := e
  unfold event_record
  cases ty <;> by_cases h2 : st? = some CrabStatus.TIMEOUT <;> simp [h2]

theorem event_record_status (rec0 : JobRecord) (e : CrabEvent) :
    (event_record rec0 e).status = (apply_event_status rec0 e.status).status := by
  obtain ⟨eid, ejob, ty, st?, dt⟩ := e
  unfold event_record
  cases ty <;> by_cases h2 : st? = some CrabStatus.TIMEOUT <;> simp [h2]

theorem event_record_running (rec0 : JobRecord) (e : CrabEvent) :
    (event_record rec0 e).running =
      (if e.type = CrabEventType.FINISH ∨ e.status = some CrabStatus.TIMEOUT then false
       else if e.type = CrabEventType.START then true else rec0.running) := by
  obtain ⟨eid, ejob, ty, st?, dt⟩ := e
  unfold event_record
  cases ty <;> by_cases h2 : st? = some CrabStatus.TIMEOUT <;>
    simp [h2, apply_event_status_running]

theorem event_record_reliability (rec0 : JobRecord) (e : CrabEvent) :
    (event_record rec0 e).reliability = rec0.reliability := by
  obtain ⟨eid, ejob, ty, st?, dt⟩ := e
  unfold event_record
  cases ty <;> by_cases h2 : st? = some CrabStatus.TIMEOUT <;>
    simp [h2, apply_event_status_reliability]

/-- `process_event` fails (the Python `KeyError`) when the job has no
status record. -/
theorem process_event_no_record (jobid : Nat) (e : CrabEvent) (s : CrabMonitor)
    (hrec : dlookup s.status jobid = none) :
    process_event jobid e s = none := by
  unfold process_event
  rw [hrec]
  rfl

/-- Shape of `process_event` for a non-START event of a registered job. -/
theorem process_event_not_start (jobid : Nat) (e : CrabEvent) (s : CrabMonitor)
    (rec0 : JobRecord) (hrec : dlookup s.status jobid = some rec0)
    (hty : e.type ≠ CrabEventType.START) :
    process_event jobid e s =
      some { s with
              status := dinsert s.status jobid (event_record rec0 e),
              timeout := if e.type = CrabEventType.FINISH ∨ e.status = some CrabStatus.TIMEOUT
                         then derase s.timeout jobid else s.timeout } := by
  unfold process_event event_record
  rw [hrec]
  simp only [Option.bind_eq_bind, Option.some_bind, if_neg hty]
  by_cases h2 : e.type = CrabEventType.FINISH ∨ e.status = some CrabStatus.TIMEOUT <;>
    (simp only [h2, if_true, if_false, Option.some_bind, reduceIte]; rfl)

/-- Shape of `process_event` for a START event of a registered, configured
job. -/
theorem process_event_start (jobid : Nat) (e : CrabEvent) (s : CrabMonitor)
    (rec0 : JobRecord) (cfg : JobConfig)
    (hrec : dlookup s.status jobid = some rec0)
    (hcfg : dlookup s.config jobid = some cfg)
    (hty : e.type = CrabEventType.START) :
    process_event jobid e s =
      some { s with
              status := dinsert s.status jobid (event_record rec0 e),
              last_start := dinsert s.last_start jobid e.datetime,
              timeout := if e.status = some CrabStatus.TIMEOUT
                         then derase (dinsert s.timeout jobid (e.datetime + cfg.timeout)) jobid
                         else dinsert s.timeout jobid (e.datetime + cfg.timeout),
              miss_timeout := derase s.miss_timeout jobid } := by
  unfold process_event event_record
  rw [hrec]
  have hnf : (e.type = CrabEventType.FINISH ∨ e.status = some CrabStatus.TIMEOUT) ↔
      e.status = some CrabStatus.TIMEOUT := by
    constructor
    · rintro (hc | hc)
      · rw [hty] at hc; exact CrabEventType.noConfusion hc
      · exact hc
    · exact fun hc => Or.inr hc
  simp only [Option.bind_eq_bind, Option.some_bind, if_pos hty, hcfg, hnf]
  by_cases h2 : e.status = some CrabStatus.TIMEOUT <;>
    (simp only [h2, if_true, if_false, Option.some_bind, reduceIte]; rfl)

/-- `process_event` fails on a START event when the job has no config
entry. -/
theorem process_event_start_no_config (jobid : Nat) (e : CrabEvent) (s : CrabMonitor)
    (rec0 : JobRecord) (hrec : dlookup s.status jobid = some rec0)
    (hcfg : dlookup s.config jobid = none)
    (hty : e.type = CrabEventType.START) :
    process_event jobid e s = none := by
  unfold process_event
  rw [hrec]
  simp only [Option.bind_eq_bind, Option.some_bind, if_pos hty, hcfg]
  rfl

/-- `process_event` fields it never touches. -/
theorem process_event_frame (jobid : Nat) (e : CrabEvent) (s s' : CrabMonitor)
    (h : process_event jobid e s = some s') :
    s'.sched = s.sched ∧ s'.config = s.config ∧
    s'.max_startid = s.max_startid ∧ s'.max_warnid = s.max_warnid ∧
    s'.max_finishid = s.max_finishid ∧ s'.num_warning = s.num_warning ∧
    s'.num_error = s.num_error ∧ s'.status_ready = s.status_ready := by
  cases hrec : dlookup s.status jobid with
  | none => rw [process_event_no_record jobid e s hrec] at h; exact Option.noConfusion h
  | some rec0 =>
    by_cases hty : e.type = CrabEventType.START
    · cases hcfg : dlookup s.config jobid with
      | none =>
        rw [process_event_start_no_config jobid e s rec0 hrec hcfg hty] at h
        exact Option.noConfusion h
      | some cfg =>
        rw [process_event_start jobid e s rec0 cfg hrec hcfg hty] at h
        cases h
        simp
    · rw [process_event_not_start jobid e s rec0 hrec hty] at h
      cases h
      simp

/-! ## Reliability and history -/

/-- Shape of `compute_reliability` on a registered job. -/
theorem compute_reliability_some (jobid : Nat) (s : CrabMonitor) (rec0 : JobRecord)
    (hrec : dlookup s.status jobid = some rec0) :
    compute_reliability jobid s =
      some { s with status := dinsert s.status jobid
                      ({ rec0 with reliability := some (reliability_of rec0.history) }) } := by
  unfold compute_reliability
  rw [hrec]
  rfl

/-- The status table after a successful `process_event`. -/
theorem process_event_status_shape (jobid : Nat) (e : CrabEvent) (s s' : CrabMonitor)
    (h : process_event jobid e s = some s') :
    ∃ rec0, dlookup s.status jobid = some rec0 ∧
      s'.status = dinsert s.status jobid (event_record rec0 e) := by
  cases hrec : dlookup s.status jobid with
  | none => rw [process_event_no_record jobid e s hrec] at h; exact Option.noConfusion h
  | some rec0 =>
    refine ⟨rec0, rfl, ?_⟩
    by_cases hty : e.type = CrabEventType.START
    · cases hcfg : dlookup s.config jobid with
      | none =>
        rw [process_event_start_no_config jobid e s rec0 hrec hcfg hty] at h
        exact Option.noConfusion h
      | some cfg =>
        rw [process_event_start jobid e s rec0 cfg hrec hcfg hty] at h
        cases h
        rfl
    · rw [process_event_not_start jobid e s rec0 hrec hty] at h
      cases h
      rfl

/-- The history update of `_process_event` keeps the buffer within
`HISTORY_COUNT` entries. -/
theorem history_update_length (h : List CrabStatus) (st : CrabStatus)
    (hlen : h.length ≤ HISTORY_COUNT) :
    ((if h.length ≥ HISTORY_COUNT then h.drop 1 else h) ++ [st]).length ≤ HISTORY_COUNT := by
  unfold HISTORY_COUNT at *
  by_cases hc : h.length ≥ 10 <;> simp [hc, List.length_append, List.length_drop] <;> omega

/-- `event_record` keeps the history within capacity. -/
theorem event_record_history_length (rec0 : JobRecord) (e : CrabEvent)
    (hlen : rec0.history.length ≤ HISTORY_COUNT) :
    (event_record rec0 e).history.length ≤ HISTORY_COUNT := by
  rw [event_record_history]
  cases hst : e.status with
  | none => exact hlen
  | some st =>
    rw [apply_event_status_history]
    by_cases ht : is_trivial st
    · simp [ht]; exact hlen
    · simp only [ht, if_false, Bool.false_eq_true]
      exact history_update_length rec0.history st hlen

/-- One poll-loop ingestion step (`_process_event` then
`_compute_reliability`): the record stays present, its history is the
event-updated history, and its reliability is freshly recomputed from
that history. -/
theorem ingest_event_some (jobid : Nat) (e : CrabEvent) (s s' : CrabMonitor)
    (h : ingest_event jobid e s = some s') :
    ∃ rec0 rec', dlookup s.status jobid = some rec0 ∧
      dlookup s'.status jobid = some rec' ∧
      rec'.history = (event_record rec0 e).history ∧
      rec'.reliability = some (reliability_of rec'.history) := by
  unfold ingest_event at h
  simp only [Option.bind_eq_bind] at h
  cases h1 : process_event jobid e s with
  | none => rw [h1] at h; exact Option.noConfusion h
  | some s1 =>
    rw [h1, Option.some_bind] at h
    obtain ⟨rec0, hrec0, hshape⟩ := process_event_status_shape jobid e s s1 h1
    have hlook1 : dlookup s1.status jobid = some (event_record rec0 e) := by
      rw [hshape]; exact dlookup_dinsert_self _ _ _
    rw [compute_reliability_some jobid s1 (event_record rec0 e) hlook1] at h
    cases h
    refine ⟨rec0,
      { event_record rec0 e with
          reliability := some (reliability_of (event_record rec0 e).history) },
      hrec0, dlookup_dinsert_self _ _ _, rfl, rfl⟩

/-- Invariant preservation along a sequence of ingested events: the
history stays within capacity and, once at least one event has been
ingested, the reliability equals the formula over the current history. -/
theorem ingest_events_invariant (jobid : Nat) (es : List CrabEvent) :
    ∀ (s s' : CrabMonitor) (r : JobRecord),
      dlookup s.status jobid = some r → r.history.length ≤ HISTORY_COUNT →
      ingest_events jobid es s = some s' →
      ∃ r', dlookup s'.status jobid = some r' ∧
        r'.history.length ≤ HISTORY_COUNT ∧
        (es ≠ [] → r'.reliability = some (reliability_of r'.history)) := by
  induction es with
  | nil =>
    intro s s' r hr hlen hrun
    unfold ingest_events at hrun
    simp only [List.foldlM_nil] at hrun
    cases hrun
    exact ⟨r, hr, hlen, fun hc => absurd rfl hc⟩
  | cons e es ih =>
    intro s s' r hr hlen hrun
    unfold ingest_events at hrun
    simp only [List.foldlM_cons] at hrun
    cases h1 : ingest_event jobid e s with
    | none =>
      rw [h1] at hrun
      exact Option.noConfusion hrun
    | some s1 =>
      rw [h1] at hrun
      simp only [Option.bind_eq_bind, Option.some_bind] at hrun
      obtain ⟨rec0, rec1, hrec0, hrec1, hhist, hrel⟩ := ingest_event_some jobid e s s1 h1
      have hr0 : rec0 = r := by
        rw [hr] at hrec0
        exact (Option.some_inj.mp hrec0).symm
      have hlen1 : rec1.history.length ≤ HISTORY_COUNT := by
        rw [hhist]
        exact event_record_history_length rec0 e (by rw [hr0]; exact hlen)
      cases es with
      | nil =>
        simp only [List.foldlM_nil] at hrun
        cases hrun
        exact ⟨rec1, hrec1, hlen1, fun _ => hrel⟩
      | cons e2 es2 =>
        obtain ⟨r', h1', h2', h3'⟩ :=
          ih s1 s' rec1 hrec1 hlen1 (by unfold ingest_events; exact hrun)
        exact ⟨r', h1', h2', fun _ => h3' (by simp)⟩

/-! ## `schedule_job` and `initialize_job` shapes -/

/-- `_schedule_job` when no schedule results (no job info, no time
string, or a parse failure): the record's `scheduled` flag is set false
and nothing else changes — in particular `self.sched` keeps whatever
entry it already had for the job. -/
theorem schedule_job_no_schedule (getInfo : Nat → Option JobInfo)
    (parse : String → Option String → Except Unit CrabSchedule)
    (id_ : Nat) (jobinfo? : Option JobInfo) (s : CrabMonitor) (rec0 : JobRecord)
    (hrec : dlookup s.status id_ = some rec0)
    (hfail : ∀ info, effective_jobinfo getInfo id_ jobinfo? = some info →
       info.time = none ∨
         ∃ t, info.time = some t ∧ ∃ err, parse t info.timezone = Except.error err) :
    schedule_job getInfo parse id_ jobinfo? s =
      some { s with status := dinsert s.status id_ ({ rec0 with scheduled := false }) } := by
  unfold schedule_job
  rw [hrec]
  simp only [Option.bind_eq_bind, Option.some_bind]
  cases hji : effective_jobinfo getInfo id_ jobinfo? with
  | none => rfl
  | some info =>
    rcases hfail info hji with ht | ⟨t, ht, err, hp⟩
    · simp only [ht]; rfl
    · simp only [ht, hp]; rfl

/-- `_schedule_job` when a schedule parses: the schedule is stored and
the record's `scheduled` flag is set true. -/
theorem schedule_job_parse_ok (getInfo : Nat → Option JobInfo)
    (parse : String → Option String → Except Unit CrabSchedule)
    (id_ : Nat) (jobinfo? : Option JobInfo) (s : CrabMonitor) (rec0 : JobRecord)
    (info : JobInfo) (t : String) (cs : CrabSchedule)
    (hrec : dlookup s.status id_ = some rec0)
    (hji : effective_jobinfo getInfo id_ jobinfo? = some info)
    (ht : info.time = some t)
    (hp : parse t info.timezone = Except.ok cs) :
    schedule_job getInfo parse id_ jobinfo? s =
      some { s with sched := dinsert s.sched id_ cs,
                    status := dinsert (dinsert s.status id_ ({ rec0 with scheduled := false }))
                                id_ ({ rec0 with scheduled := true }) } := by
  unfold schedule_job
  rw [hrec]
  simp only [Option.bind_eq_bind, Option.some_bind]
  rw [hji]
  simp only [ht, hp]
  rfl

/-- The record and config `_initialize_job` leaves for a non-vanished
job. -/
theorem initialize_job_ok_record (getInfo : Nat → Option JobInfo)
    (parse : String → Option String → Except Unit CrabSchedule)
    (id_ : Nat) (s s' : CrabMonitor)
    (h : initialize_job getInfo parse id_ s = Except.ok s') :
    ∃ info, getInfo id_ = some info ∧ info.deleted = none ∧
      ∃ b, dlookup s'.status id_ =
          some { status := none, running := false, history := [],
                 installed := info.installed, scheduled := b, reliability := none } ∧
        dlookup s'.config id_ = some { graceperiod := 120, timeout := 300 } := by
  unfold initialize_job at h
  cases hgi : getInfo id_ with
  | none => rw [hgi] at h; exact Except.noConfusion h
  | some info =>
    rw [hgi] at h
    by_cases hdel : info.deleted = none
    · simp only [hdel, ne_eq, not_true_eq_false, if_false, reduceIte] at h
      refine ⟨info, rfl, hdel, ?_⟩
      set rec0 : JobRecord :=
        { status := none, running := false, history := [],
          installed := info.installed, scheduled := false, reliability := none } with hrec0
      have hlook : dlookup (dinsert s.status id_ rec0) id_ = some rec0 :=
        dlookup_dinsert_self _ _ _
      cases htime : info.time with
      | none =>
        rw [schedule_job_no_schedule getInfo parse id_ (some info) _ rec0 hlook
              (fun info2 hji => by
                 cases hji
                 exact Or.inl htime)] at h
        cases h
        refine ⟨false, ?_, dlookup_dinsert_self _ _ _⟩
        exact dlookup_dinsert_self _ _ _
      | some t =>
        cases hp : parse t info.timezone with
        | error err =>
          rw [schedule_job_no_schedule getInfo parse id_ (some info) _ rec0 hlook
                (fun info2 hji => by
                   cases hji
                   exact Or.inr ⟨t, htime, err, hp⟩)] at h
          cases h
          refine ⟨false, ?_, dlookup_dinsert_self _ _ _⟩
          exact dlookup_dinsert_self _ _ _
        | ok cs =>
          rw [schedule_job_parse_ok getInfo parse id_ (some info) _ rec0 info t cs hlook
                rfl htime hp] at h
          cases h
          refine ⟨true, ?_, dlookup_dinsert_self _ _ _⟩
          exact dlookup_dinsert_self _ _ _
    · have hdel' : info.deleted ≠ none := hdel
      simp only [hdel', ne_eq, if_true, reduceIte] at h
      exact Except.noConfusion h

/-- The record left by a successful `compute_reliability` has its
reliability consistent with its history. -/
theorem compute_reliability_result (jobid : Nat) (s s' : CrabMonitor)
    (h : compute_reliability jobid s = some s') :
    ∃ r', dlookup s'.status jobid = some r' ∧
      r'.reliability = some (reliability_of r'.history) := by
  unfold compute_reliability at h
  cases hrec : dlookup s.status jobid with
  | none => rw [hrec] at h; exact Option.noConfusion h
  | some rec0 =>
    rw [hrec] at h
    simp only [Option.bind_eq_bind, Option.some_bind] at h
    cases h
    exact ⟨{ rec0 with reliability := some (reliability_of rec0.history) },
           dlookup_dinsert_self _ _ _, rfl⟩

/-! ## Claim C1 -/

/-- Concrete fixtures for counterexamples and witnesses. -/
def recBlank : JobRecord :=
  { status := none, running := false, history := [], installed := 0,
    scheduled := false, reliability := none }

def cfgDefault : JobConfig := { graceperiod := 120, timeout := 300 }

def infoPlain : JobInfo :=
  { installed := 7, deleted := none, time := none, timezone := none }

def getInfoPlain : Nat → Option JobInfo := fun _ => some infoPlain

def parseFail : String → Option String → Except Unit CrabSchedule :=
  fun _ _ => Except.error ()

/-- C1 (amended): after every poll-loop ingestion step
(`_process_event` + `_compute_reliability`) the job's `reliability`
equals `reliability_of` its current history, and the bulk-load path
computes it before finishing a job; however, the record created by
`_initialize_job` — in particular one created during the reconciliation
pass, whose events have not yet been processed — carries no
`reliability` value at all (`none`), not the value 0 the claim
prescribes for an empty history. -/
theorem C1_reliability_consistency_amended :
    (∀ (jobid : Nat) (e : CrabEvent) (s s' : CrabMonitor),
        ingest_event jobid e s = some s' →
        ∃ r', dlookup s'.status jobid = some r' ∧
          r'.reliability = some (reliability_of r'.history)) ∧
    (∀ (getInfo : Nat → Option JobInfo)
        (parse : String → Option String → Except Unit CrabSchedule)
        (id_ : Nat) (s s' : CrabMonitor),
        initialize_job getInfo parse id_ s = Except.ok s' →
        ∃ r', dlookup s'.status id_ = some r' ∧ r'.history = [] ∧
          r'.reliability = none) ∧
    (∀ (getInfo : Nat → Option JobInfo)
        (parse : String → Option String → Except Unit CrabSchedule)
        (getEvents : Nat → List CrabEvent) (jobid : Nat) (s s1 s' : CrabMonitor),
        initialize_job getInfo parse jobid s = Except.ok s1 →
        bulk_load_job getInfo parse getEvents s jobid = some s' →
        ∃ r', dlookup s'.status jobid = some r' ∧
          r'.reliability = some (reliability_of r'.history)) := by
  refine ⟨?_, ?_, ?_⟩
  · intro jobid e s s' h
    obtain ⟨rec0, rec', _, h1, _, h2⟩ := ingest_event_some jobid e s s' h
    exact ⟨rec', h1, h2⟩
  · intro getInfo parse id_ s s' h
    obtain ⟨info, _, _, b, h1, _⟩ := initialize_job_ok_record getInfo parse id_ s s' h
    exact ⟨_, h1, rfl, rfl⟩
  · intro getInfo parse getEvents jobid s s1 s' hinit h
    unfold bulk_load_job at h
    rw [hinit] at h
    simp only [Option.bind_eq_bind] at h
    cases h2 : (getEvents jobid).reverse.foldlM
        (fun st e => process_event jobid e (update_max_id_values e st)) s1 with
    | none => rw [h2] at h; exact Option.noConfusion h
    | some s2 =>
      rw [h2, Option.some_bind] at h
      exact compute_reliability_result jobid s2 s' h

/-- C1 counterexample: the reconciliation pass initializes a job through
`_initialize_job` alone (monitor.py line 160), which leaves the record
without any `reliability` value; the claim requires `reliability = 0`
(consistent with the empty history) there. -/
theorem C1_counterexample :
    ((initialize_job getInfoPlain parseFail 1 initMonitor).toOption.bind
        (fun s' => dlookup s'.status 1)).map (fun r => (r.history, r.reliability)) =
      some ([], none) ∧
    some (([] : List CrabStatus), (none : Option Nat)) ≠
      some (([] : List CrabStatus), some (reliability_of [])) :=
  ⟨rfl, by decide⟩

def c1_state : CrabMonitor :=
  match initialize_job getInfoPlain parseFail 1 initMonitor with
  | Except.ok s => s
  | Except.error _ => initMonitor

def evWarnFail : CrabEvent :=
  { id := 3, jobid := 1, type := CrabEventType.WARN,
    status := some CrabStatus.FAIL, datetime := 20 }

def c1_state2 : CrabMonitor :=
  (ingest_event 1 evWarnFail c1_state).getD initMonitor

theorem C1_witness :
    (dlookup c1_state.status 1).map (fun r => (r.history, r.reliability)) =
      some ([], none) ∧
    (dlookup c1_state2.status 1).map
        (fun r => decide (r.reliability = some (reliability_of r.history))) =
      some true := by
  constructor
  · obtain ⟨r', h1, h2, h3⟩ :=
      C1_reliability_consistency_amended.2.1 getInfoPlain parseFail 1
        initMonitor c1_state rfl
    simp [h1, h2, h3]
  · obtain ⟨r', h1, h2⟩ :=
      C1_reliability_consistency_amended.1 1 evWarnFail c1_state c1_state2 rfl
    rw [h1]
    simp [h2]

/-! ## Claim C2 -/

/-- C2: over every sequence of ingested events, a registered job's
history never exceeds 10 entries — with the oldest entry dropped when a
non-trivial status is appended at capacity — and once at least one event
has been ingested (each ingestion ending in `_compute_reliability`) the
stored reliability equals `100 * count(SUCCESS) / len` (0 when empty,
integer division) over the current history. -/
theorem C2_history_bound_reliability :
    (∀ (jobid : Nat) (es : List CrabEvent) (s s' : CrabMonitor) (r : JobRecord),
        dlookup s.status jobid = some r → r.history.length ≤ 10 →
        ingest_events jobid es s = some s' →
        ∃ r', dlookup s'.status jobid = some r' ∧ r'.history.length ≤ 10 ∧
          (es ≠ [] → r'.reliability = some (reliability_of r'.history))) ∧
    (∀ (rec0 : JobRecord) (st : CrabStatus),
        is_trivial st = false → rec0.history.length = 10 →
        (apply_event_status rec0 (some st)).history = rec0.history.drop 1 ++ [st]) := by
  constructor
  · intro jobid es s s' r hr hlen hrun
    exact ingest_events_invariant jobid es s s' r hr hlen hrun
  · intro rec0 st ht hlen
    rw [apply_event_status_history]
    have : rec0.history.length ≥ HISTORY_COUNT := by
      unfold HISTORY_COUNT
      omega
    simp [ht, this]

def c2_s0 : CrabMonitor :=
  { initMonitor with
      status := [(1, { recBlank with history :=
        [CrabStatus.SUCCESS, CrabStatus.SUCCESS, CrabStatus.FAIL] })],
      config := [(1, cfgDefault)] }

def c2_events : List CrabEvent :=
  [{ id := 4, jobid := 1, type := CrabEventType.FINISH,
     status := some CrabStatus.SUCCESS, datetime := 30 }]

def c2_s1 : CrabMonitor := (ingest_events 1 c2_events c2_s0).getD initMonitor

theorem C2_witness :
    (dlookup c2_s1.status 1).map
        (fun r => (decide (r.history.length ≤ 10),
                   decide (r.reliability = some (reliability_of r.history)))) =
      some (true, true) ∧
    (dlookup c2_s1.status 1).map (fun r => (r.history, r.reliability)) =
      some ([CrabStatus.SUCCESS, CrabStatus.SUCCESS, CrabStatus.FAIL,
             CrabStatus.SUCCESS], some 75) := by
  constructor
  · obtain ⟨r', h1, h2, h3⟩ := C2_history_bound_reliability.1 1 c2_events c2_s0 c2_s1
      { recBlank with history :=
          [CrabStatus.SUCCESS, CrabStatus.SUCCESS, CrabStatus.FAIL] }
      rfl (by decide) rfl
    rw [h1]
    simp [h2, h3 (by simp [c2_events])]
  · rfl

/-! ## Claim C3 -/

/-- Category exclusivity: a warning-category status is not ok-category. -/
theorem warning_not_ok {p : CrabStatus} (h : is_warning p = true) :
    is_ok p = false := by
  cases p <;> simp_all [is_warning, is_ok, statusCat]

/-- Category exclusivity: an error-category status is not ok-category. -/
theorem error_not_ok {p : CrabStatus} (h : is_error p = true) :
    is_ok p = false := by
  cases p <;> simp_all [is_error, is_ok, statusCat]

/-- C3: status-overwrite precedence of `_process_event`.  A trivial
status overwrites only an unset or ok-category status; a warning status
overwrites unless the current status is error-category; any remaining
(success / failure) status — in particular SUCCESS and FAIL — always
overwrites.  Consequently a trivial event never downgrades a
warning/error status and a warning event never downgrades an error
status. -/
theorem C3_status_precedence :
    ∀ (jobid : Nat) (e : CrabEvent) (s s' : CrabMonitor) (r : JobRecord)
      (st : CrabStatus),
      dlookup s.status jobid = some r →
      e.status = some st →
      process_event jobid e s = some s' →
      ∃ r', dlookup s'.status jobid = some r' ∧
        (is_trivial st = true →
          r'.status = (match r.status with
                       | none => some st
                       | some p => if is_ok p then some st else some p)) ∧
        (is_warning st = true →
          r'.status = (match r.status with
                       | none => some st
                       | some p => if is_error p then some p else some st)) ∧
        (is_trivial st = false → is_warning st = false → r'.status = some st) ∧
        ((st = CrabStatus.SUCCESS ∨ st = CrabStatus.FAIL) → r'.status = some st) ∧
        (is_trivial st = true → ∀ p, r.status = some p →
          (is_warning p = true ∨ is_error p = true) → r'.status = some p) ∧
        (is_warning st = true → ∀ p, r.status = some p →
          is_error p = true → r'.status = some p) := by
  intro jobid e s s' r st hr hst hrun
  obtain ⟨rec0, hrec0, hshape⟩ := process_event_status_shape jobid e s s' hrun
  have hr0 : rec0 = r := by
    rw [hr] at hrec0
    exact (Option.some_inj.mp hrec0).symm
  subst hr0
  refine ⟨event_record rec0 e, by rw [hshape]; exact dlookup_dinsert_self _ _ _, ?_⟩
  have hs : (event_record rec0 e).status = (apply_event_status rec0 (some st)).status := by
    rw [event_record_status, hst]
  rw [hs, apply_event_status_status]
  refine ⟨?_, ?_, ?_, ?_, ?_, ?_⟩
  · intro ht
    simp [ht]
  · intro hw
    have ht : is_trivial st = false := by
      cases st <;> simp_all [is_trivial, is_warning, statusCat]
    simp [ht, hw]
  · intro ht hw
    simp [ht, hw]
  · intro hterm
    have ht : is_trivial st = false := by
      rcases hterm with h | h <;> subst h <;> decide
    have hw : is_warning st = false := by
      rcases hterm with h | h <;> subst h <;> decide
    simp [ht, hw]
  · intro ht p hp hcat
    have ho : is_ok p = false := by
      rcases hcat with h | h
      · exact warning_not_ok h
      · exact error_not_ok h
    simp [ht, hp, ho]
  · intro hw p hp he
    have ht : is_trivial st = false := by
      cases st <;> simp_all [is_trivial, is_warning, statusCat]
    simp [ht, hw, hp, he]

def c3_s0 : CrabMonitor :=
  { initMonitor with
      status := [(1, { recBlank with status := some CrabStatus.WARNING })],
      config := [(1, cfgDefault)] }

def c3_ev : CrabEvent :=
  { id := 9, jobid := 1, type := CrabEventType.WARN,
    status := some CrabStatus.OK, datetime := 11 }

def c3_s1 : CrabMonitor := (process_event 1 c3_ev c3_s0).getD initMonitor

theorem C3_witness :
    (dlookup c3_s1.status 1).map (fun r => r.status) =
      some (some CrabStatus.WARNING) := by
  obtain ⟨r', hl, h1, h2, h3, h4, h5, h6⟩ :=
    C3_status_precedence 1 c3_ev c3_s0 c3_s1
      { recBlank with status := some CrabStatus.WARNING } CrabStatus.OK
      rfl rfl rfl
  simp [hl, h5 (by decide) CrabStatus.WARNING rfl (Or.inl (by decide))]

/-! ## Claim C4 -/

/-- C4 (amended): for a START event that does not itself carry a TIMEOUT
status, `_process_event` sets `running = true`, records `last_start`,
arms `timeout[jobid] = event time + configured timeout` and clears any
`miss_timeout[jobid]`; for a FINISH event, or any event carrying a
TIMEOUT status — including a START event with TIMEOUT status, for which
the second branch runs after and overrides the first — it leaves
`running = false` and no `timeout[jobid]` entry. -/
theorem C4_start_finish_amended :
    ∀ (jobid : Nat) (e : CrabEvent) (s s' : CrabMonitor) (r : JobRecord)
      (cfg : JobConfig),
      dlookup s.status jobid = some r →
      dlookup s.config jobid = some cfg →
      process_event jobid e s = some s' →
      (e.type = CrabEventType.START → e.status ≠ some CrabStatus.TIMEOUT →
        (∃ r', dlookup s'.status jobid = some r' ∧ r'.running = true) ∧
        dlookup s'.last_start jobid = some e.datetime ∧
        dlookup s'.timeout jobid = some (e.datetime + cfg.timeout) ∧
        dlookup s'.miss_timeout jobid = none) ∧
      ((e.type = CrabEventType.FINISH ∨ e.status = some CrabStatus.TIMEOUT) →
        (∃ r', dlookup s'.status jobid = some r' ∧ r'.running = false) ∧
        dlookup s'.timeout jobid = none) := by
  intro jobid e s s' r cfg hr hcfg hrun
  by_cases hty : e.type = CrabEventType.START
  · rw [process_event_start jobid e s r cfg hr hcfg hty] at hrun
    cases hrun
    constructor
    · intro _ hnt
      refine ⟨⟨event_record r e, dlookup_dinsert_self _ _ _, ?_⟩, ?_, ?_, ?_⟩
      · rw [event_record_running]
        simp [hty, hnt]
      · exact dlookup_dinsert_self _ _ _
      · rw [if_neg hnt]
        exact dlookup_dinsert_self _ _ _
      · exact dlookup_derase_self _ _
    · intro hft
      have hts : e.status = some CrabStatus.TIMEOUT := by
        rcases hft with hc | hc
        · rw [hty] at hc; exact absurd hc (by decide)
        · exact hc
      refine ⟨⟨event_record r e, dlookup_dinsert_self _ _ _, ?_⟩, ?_⟩
      · rw [event_record_running]
        simp [hts]
      · simp only [hts, if_pos]
        exact dlookup_derase_self _ _
  · rw [process_event_not_start jobid e s r hr hty] at hrun
    cases hrun
    constructor
    · intro hc
      exact absurd hc hty
    · intro hft
      refine ⟨⟨event_record r e, dlookup_dinsert_self _ _ _, ?_⟩, ?_⟩
      · rw [event_record_running]
        simp [hft]
      · simp only [hft, if_pos]
        exact dlookup_derase_self _ _

def c4_s0 : CrabMonitor :=
  { initMonitor with status := [(1, recBlank)], config := [(1, cfgDefault)],
                     miss_timeout := [(1, 999)] }

def c4_start_timeout : CrabEvent :=
  { id := 2, jobid := 1, type := CrabEventType.START,
    status := some CrabStatus.TIMEOUT, datetime := 50 }

/-- C4 counterexample: a START event whose status is TIMEOUT runs both
branches of `_process_event`; the FINISH/TIMEOUT branch runs second, so
the job ends not running and with no `timeout[jobid]` deadline — the
claim's START clause (`running` becomes true, `timeout[jobid]` set)
fails on it. -/
theorem C4_counterexample :
    ((process_event 1 c4_start_timeout c4_s0).bind
        (fun s' => dlookup s'.status 1)).map (fun r => r.running) = some false ∧
    (process_event 1 c4_start_timeout c4_s0).map
        (fun s' => dlookup s'.timeout 1) = some none ∧
    some false ≠ some true := ⟨rfl, rfl, by decide⟩

def c4_start_plain : CrabEvent :=
  { id := 2, jobid := 1, type := CrabEventType.START, status := none,
    datetime := 50 }

def c4_s1 : CrabMonitor := (process_event 1 c4_start_plain c4_s0).getD initMonitor

def c4_finish : CrabEvent :=
  { id := 3, jobid := 1, type := CrabEventType.FINISH,
    status := some CrabStatus.SUCCESS, datetime := 80 }

def c4_s2 : CrabMonitor := (process_event 1 c4_finish c4_s1).getD initMonitor

theorem C4_witness :
    ((dlookup c4_s1.status 1).map (fun r => r.running) = some true ∧
      dlookup c4_s1.last_start 1 = some 50 ∧
      dlookup c4_s1.timeout 1 = some (50 + 300) ∧
      dlookup c4_s1.miss_timeout 1 = none) ∧
    ((dlookup c4_s2.status 1).map (fun r => r.running) = some false ∧
      dlookup c4_s2.timeout 1 = none) := by
  constructor
  · obtain ⟨⟨r', hl, hr⟩, h2, h3, h4⟩ :=
      (C4_start_finish_amended 1 c4_start_plain c4_s0 c4_s1 recBlank
        cfgDefault rfl rfl rfl).1 rfl (by decide)
    exact ⟨by simp [hl, hr], h2, h3, h4⟩
  · obtain ⟨⟨r', hl, hr⟩, h2⟩ :=
      (C4_start_finish_amended 1 c4_finish c4_s1 c4_s2
        ({ recBlank with running := true }) cfgDefault rfl rfl rfl).2 (Or.inl rfl)
    exact ⟨by simp [hl, hr], h2⟩

/-! ## Claim C6: deadline expiry -/

instance {α : Type} (m : List (Nat × α)) : Decidable (dnodup m) := by
  unfold dnodup
  infer_instance

/-- Generalized run of one expiry scan: folding the scan step over a
snapshot list `l` whose entries are all present in the current dict. -/
theorem expire_fold_eq (now : Nat) :
    ∀ (l : List (Nat × Nat)) (cur : List (Nat × Nat)) (ws : List Nat),
      (∀ p ∈ l, dlookup cur p.1 = some p.2) → (dkeys l).Nodup →
      (l.foldl (fun acc p =>
          match dlookup acc.1 p.1 with
          | some d => if d < now then (derase acc.1 p.1, acc.2 ++ [p.1]) else acc
          | none => acc) (cur, ws)) =
      ((l.filter (fun p => decide (p.2 < now))).foldl (fun c p => derase c p.1) cur,
       ws ++ (l.filter (fun p => decide (p.2 < now))).map (fun p => p.1)) := by
  intro l
  induction l with
  | nil => intro cur ws _ _; simp
  | cons p l ih =>
    intro cur ws hall hnod
    have hp : dlookup cur p.1 = some p.2 := hall p (List.mem_cons_self p l)
    have hkey : p.1 ∉ dkeys l := by
      unfold dkeys at hnod ⊢
      simp only [List.map_cons, List.nodup_cons] at hnod
      exact hnod.1
    have hnod' : (dkeys l).Nodup := by
      unfold dkeys at hnod ⊢
      simp only [List.map_cons, List.nodup_cons] at hnod
      exact hnod.2
    simp only [List.foldl_cons, hp]
    by_cases hd : p.2 < now
    · rw [if_pos hd]
      have hall' : ∀ q ∈ l, dlookup (derase cur p.1) q.1 = some q.2 := by
        intro q hq
        have : q.1 ≠ p.1 := by
          intro hc
          exact hkey (hc ▸ List.mem_map_of_mem (fun r => r.1) hq)
        rw [dlookup_derase_ne cur p.1 q.1 this]
        exact hall q (List.mem_cons_of_mem p hq)
      rw [ih (derase cur p.1) (ws ++ [p.1]) hall' hnod']
      simp [hd, List.filter_cons]
    · rw [if_neg hd]
      have hall' : ∀ q ∈ l, dlookup cur q.1 = some q.2 := fun q hq =>
        hall q (List.mem_cons_of_mem p hq)
      rw [ih cur ws hall' hnod']
      simp [hd, List.filter_cons]

/-- Looking up a key after erasing a list of entries. -/
theorem dlookup_foldl_derase (l : List (Nat × Nat)) :
    ∀ (cur : List (Nat × Nat)) (k : Nat),
      dlookup (l.foldl (fun c p => derase c p.1) cur) k =
        if k ∈ dkeys l then none else dlookup cur k := by
  induction l with
  | nil => intro cur k; simp [dkeys]
  | cons p l ih =>
    intro cur k
    simp only [List.foldl_cons]
    rw [ih]
    have hmem_cons : k ∈ dkeys (p :: l) ↔ (k = p.1 ∨ k ∈ dkeys l) := by
      simp [dkeys]
    by_cases hk : k = p.1
    · rw [if_pos (hmem_cons.mpr (Or.inl hk))]
      by_cases hm : k ∈ dkeys l
      · rw [if_pos hm]
      · rw [if_neg hm, hk, dlookup_derase_self]
    · rw [dlookup_derase_ne cur p.1 k hk]
      by_cases hm : k ∈ dkeys l
      · rw [if_pos hm, if_pos (hmem_cons.mpr (Or.inr hm))]
      · rw [if_neg hm, if_neg (fun hc => (hmem_cons.mp hc).elim hk hm)]

/-- With unique keys, the entries of `m` with key `k` are exactly the one
binding `(k, v)`, filtered by any additional predicate. -/
theorem filter_conj_key_nil (k : Nat) (pred : Nat × Nat → Bool) :
    ∀ (m : List (Nat × Nat)), k ∉ dkeys m →
      m.filter (fun p => pred p && decide (p.1 = k)) = [] := by
  intro m
  induction m with
  | nil => intro _; rfl
  | cons p m ih =>
    intro hk
    unfold dkeys at hk
    simp only [List.map_cons, List.mem_cons] at hk
    push_neg at hk
    have hp : decide (p.1 = k) = false := by
      simp only [decide_eq_false_iff_not]
      exact fun hc => hk.1 hc.symm
    simp only [List.filter_cons, hp, Bool.and_false, if_false, Bool.false_eq_true]
    exact ih (by simpa [dkeys] using hk.2)

theorem filter_conj_key (m : List (Nat × Nat)) (hn : dnodup m)
    (k : Nat) (d : Nat) (hm : (k, d) ∈ m) (pred : Nat × Nat → Bool) :
    m.filter (fun p => pred p && decide (p.1 = k)) =
      if pred (k, d) then [(k, d)] else [] := by
  induction m with
  | nil => simp at hm
  | cons p m ih =>
    unfold dnodup dkeys at hn
    simp only [List.map_cons, List.nodup_cons] at hn
    rcases List.mem_cons.mp hm with h1 | h2
    · subst h1
      simp only [List.filter_cons, decide_True, Bool.and_true]
      have : m.filter (fun p => pred p && decide (p.1 = k)) = [] :=
        filter_conj_key_nil k pred m (by simpa [dkeys] using hn.1)
      by_cases hpr : pred (k, d) = true
      · simp [hpr, this]
      · simp only [Bool.not_eq_true] at hpr
        simp [hpr, this]
    · have hne : decide (p.1 = k) = false := by
        simp only [decide_eq_false_iff_not]
        intro hc
        exact hn.1 (hc ▸ List.mem_map_of_mem (fun r => r.1) h2)
      simp only [List.filter_cons, hne, Bool.and_false, if_false, Bool.false_eq_true]
      exact ih (by unfold dnodup dkeys; simpa using hn.2) h2

theorem filter_pair_same (ids : List Nat) (k : Nat) (st : CrabStatus) :
    (ids.map (fun i => (i, st))).filter (fun w => decide (w = (k, st))) =
      (ids.filter (fun i => decide (i = k))).map (fun i => (i, st)) := by
  induction ids with
  | nil => rfl
  | cons i ids ih =>
    simp only [List.map_cons, List.filter_cons]
    by_cases hi : i = k
    · simp [hi, ih]
    · have h1 : decide ((i, st) = (k, st)) = false := by simp [Prod.ext_iff, hi]
      have h2 : decide (i = k) = false := by simp [hi]
      simp [h1, h2, ih]

theorem filter_pair_diff (ids : List Nat) (k : Nat) (st st2 : CrabStatus)
    (h : st ≠ st2) :
    (ids.map (fun i => (i, st))).filter (fun w => decide (w = (k, st2))) = [] := by
  induction ids with
  | nil => rfl
  | cons i ids ih =>
    have h1 : decide ((i, st) = (k, st2)) = false := by
      simp only [decide_eq_false_iff_not, Prod.mk.injEq, not_and]
      exact fun _ => h
    simp only [List.map_cons, List.filter_cons, h1, if_false, Bool.false_eq_true]
    exact ih

theorem map_fst_filter_key (m : List (Nat × Nat)) (pred : Nat × Nat → Bool) (k : Nat) :
    ((m.filter pred).map (fun p => p.1)).filter (fun i => decide (i = k)) =
      (m.filter (fun p => pred p && decide (p.1 = k))).map (fun p => p.1) := by
  induction m with
  | nil => rfl
  | cons p m ih =>
    simp only [List.filter_cons]
    by_cases hp : pred p = true
    · by_cases hk : p.1 = k
      · simp [hp, hk, ih]
      · have h2 : decide (p.1 = k) = false := by simp [hk]
        simp [hp, h2, ih]
    · have h2 : pred p = false := by simpa using hp
      simp [h2, ih]

/-- With unique keys, a key is among the expired keys exactly when its
entry's deadline has passed. -/
theorem mem_expired_keys (now : Nat) (m : List (Nat × Nat)) (hn : dnodup m)
    (k d : Nat) (hm : (k, d) ∈ m) :
    (k ∈ dkeys (m.filter (fun p => decide (p.2 < now)))) ↔ d < now := by
  constructor
  · intro h
    obtain ⟨q, hq, hqk⟩ := List.mem_map.mp h
    have hq' : q ∈ m := (List.mem_filter.mp hq).1
    have hqd : decide (q.2 < now) = true := (List.mem_filter.mp hq).2
    have h1 : dlookup m q.1 = some q.2 := dlookup_eq_of_mem hn hq'
    have h2 : dlookup m k = some d := dlookup_eq_of_mem hn hm
    rw [hqk] at h1
    rw [h1] at h2
    have : q.2 = d := Option.some_inj.mp h2
    rw [this] at hqd
    exact of_decide_eq_true hqd
  · intro hd
    exact List.mem_map.mpr ⟨(k, d), List.mem_filter.mpr ⟨hm, by simp [hd]⟩, rfl⟩

/-- One expiry scan, per entry: an expired entry emits its key exactly
once and is removed; an unexpired entry emits nothing and survives with
its deadline. -/
theorem expire_scan_spec (now : Nat) (m : List (Nat × Nat)) (hn : dnodup m)
    (id d : Nat) (hm : (id, d) ∈ m) :
    ((expire_deadlines now m).2.filter (fun i => decide (i = id)) =
        if d < now then [id] else []) ∧
    (dlookup (expire_deadlines now m).1 id = if d < now then none else some d) := by
  have hall : ∀ p ∈ m, dlookup m p.1 = some p.2 := fun p hp =>
    dlookup_eq_of_mem hn hp
  have hrun := expire_fold_eq now m m [] hall hn
  unfold expire_deadlines
  rw [hrun]
  constructor
  · simp only [List.nil_append]
    rw [map_fst_filter_key]
    rw [filter_conj_key m hn id d hm (fun p => decide (p.2 < now))]
    by_cases hd : d < now
    · simp [hd]
    · simp [hd]
  · rw [dlookup_foldl_derase]
    by_cases hd : d < now
    · rw [if_pos ((mem_expired_keys now m hn id d hm).mpr hd), if_pos hd]
    · rw [if_neg (fun hc => hd ((mem_expired_keys now m hn id d hm).mp hc)),
        if_neg hd]
      exact dlookup_eq_of_mem hn hm

/-- C6: each poll cycle's deadline-expiry step scans a stable snapshot of
each map's entries; every `miss_timeout` entry whose deadline has passed
emits exactly one MISSED warning and is removed, every `timeout` entry
whose deadline has passed emits exactly one TIMEOUT warning and is
removed, and entries whose deadline has not passed emit nothing and keep
their deadline. -/
theorem C6_deadline_expiry :
    ∀ (now : Nat) (s : CrabMonitor),
      dnodup s.miss_timeout → dnodup s.timeout →
      ∀ (id d : Nat),
        ((id, d) ∈ s.miss_timeout →
          (d < now →
            ((check_timeouts now s).2).filter
                (fun w => decide (w = (id, CrabStatus.MISSED))) =
              [(id, CrabStatus.MISSED)] ∧
            dlookup (check_timeouts now s).1.miss_timeout id = none) ∧
          (¬ d < now →
            ((check_timeouts now s).2).filter
                (fun w => decide (w = (id, CrabStatus.MISSED))) = [] ∧
            dlookup (check_timeouts now s).1.miss_timeout id = some d)) ∧
        ((id, d) ∈ s.timeout →
          (d < now →
            ((check_timeouts now s).2).filter
                (fun w => decide (w = (id, CrabStatus.TIMEOUT))) =
              [(id, CrabStatus.TIMEOUT)] ∧
            dlookup (check_timeouts now s).1.timeout id = none) ∧
          (¬ d < now →
            ((check_timeouts now s).2).filter
                (fun w => decide (w = (id, CrabStatus.TIMEOUT))) = [] ∧
            dlookup (check_timeouts now s).1.timeout id = some d)) := by
  intro now s hnm hnt id d
  have hmiss := expire_scan_spec now s.miss_timeout hnm id d
  have hto := expire_scan_spec now s.timeout hnt id d
  constructor
  · intro hm
    obtain ⟨hws, hlook⟩ := hmiss hm
    have hsplit :
        ((check_timeouts now s).2).filter
            (fun w => decide (w = (id, CrabStatus.MISSED))) =
          ((expire_deadlines now s.miss_timeout).2.filter
              (fun i => decide (i = id))).map (fun i => (i, CrabStatus.MISSED)) := by
      unfold check_timeouts
      rw [List.filter_append, filter_pair_same, filter_pair_diff _ _ _ _ (by decide)]
      simp
    constructor
    · intro hd
      refine ⟨?_, ?_⟩
      · rw [hsplit, hws, if_pos hd]
        rfl
      · have : (check_timeouts now s).1.miss_timeout =
            (expire_deadlines now s.miss_timeout).1 := rfl
        rw [this, hlook, if_pos hd]
    · intro hd
      refine ⟨?_, ?_⟩
      · rw [hsplit, hws, if_neg hd]
        rfl
      · have : (check_timeouts now s).1.miss_timeout =
            (expire_deadlines now s.miss_timeout).1 := rfl
        rw [this, hlook, if_neg hd]
  · intro hm
    obtain ⟨hws, hlook⟩ := hto hm
    have hsplit :
        ((check_timeouts now s).2).filter
            (fun w => decide (w = (id, CrabStatus.TIMEOUT))) =
          ((expire_deadlines now s.timeout).2.filter
              (fun i => decide (i = id))).map (fun i => (i, CrabStatus.TIMEOUT)) := by
      unfold check_timeouts
      rw [List.filter_append, filter_pair_same, filter_pair_diff _ _ _ _ (by decide)]
      simp
    constructor
    · intro hd
      refine ⟨?_, ?_⟩
      · rw [hsplit, hws, if_pos hd]
        rfl
      · have : (check_timeouts now s).1.timeout =
            (expire_deadlines now s.timeout).1 := rfl
        rw [this, hlook, if_pos hd]
    · intro hd
      refine ⟨?_, ?_⟩
      · rw [hsplit, hws, if_neg hd]
        rfl
      · have : (check_timeouts now s).1.timeout =
            (expire_deadlines now s.timeout).1 := rfl
        rw [this, hlook, if_neg hd]

def c6_s0 : CrabMonitor :=
  { initMonitor with miss_timeout := [(1, 50), (2, 500)],
                     timeout := [(3, 40), (4, 800)] }

theorem C6_witness :
    ((check_timeouts 100 c6_s0).2.filter
        (fun w => decide (w = (1, CrabStatus.MISSED))) =
      [(1, CrabStatus.MISSED)] ∧
     dlookup (check_timeouts 100 c6_s0).1.miss_timeout 1 = none) ∧
    ((check_timeouts 100 c6_s0).2.filter
        (fun w => decide (w = (2, CrabStatus.MISSED))) = [] ∧
     dlookup (check_timeouts 100 c6_s0).1.miss_timeout 2 = some 500) ∧
    ((check_timeouts 100 c6_s0).2.filter
        (fun w => decide (w = (3, CrabStatus.TIMEOUT))) =
      [(3, CrabStatus.TIMEOUT)] ∧
     dlookup (check_timeouts 100 c6_s0).1.timeout 3 = none) := by
  refine ⟨?_, ?_, ?_⟩
  · exact ((C6_deadline_expiry 100 c6_s0 (by decide) (by decide) 1 50).1
      (by decide)).1 (by decide)
  · exact ((C6_deadline_expiry 100 c6_s0 (by decide) (by decide) 2 500).1
      (by decide)).2 (by decide)
  · exact ((C6_deadline_expiry 100 c6_s0 (by decide) (by decide) 3 40).2
      (by decide)).1 (by decide)

/-! ## Claim C5: the lateness check -/

/-- `foldlM` over `Option` splits across an append. -/
theorem foldlM_append_option {α β : Type} (f : β → α → Option β)
    (l1 : List α) :
    ∀ (l2 : List α) (b : β),
      (l1 ++ l2).foldlM f b = (l1.foldlM f b).bind (fun b2 => l2.foldlM f b2) := by
  induction l1 with
  | nil =>
    intro l2 b
    simp [List.foldlM_nil]
  | cons a l1 ih =>
    intro l2 b
    simp only [List.cons_append, List.foldlM_cons]
    cases hfa : f b a with
    | none => simp
    | some b1 =>
      simp only [Option.bind_eq_bind, Option.some_bind]
      exact ih l2 b1

/-- One iteration of the lateness loop for a job other than `id` leaves
the `config`, `last_start`, the `miss_timeout` entry of `id` and the
warnings mentioning `id` unchanged. -/
theorem lateness_body_other (now : Nat) (id : Nat)
    (p : Nat × CrabSchedule) (hkp : ¬ id = p.1)
    (acc acc1 : CrabMonitor × List (Nat × CrabStatus))
    (hb : lateness_body now acc p = some acc1) :
    acc1.1.config = acc.1.config ∧ acc1.1.last_start = acc.1.last_start ∧
    dlookup acc1.1.miss_timeout id = dlookup acc.1.miss_timeout id ∧
    acc1.2.filter (fun w => decide (w.1 = id)) =
      acc.2.filter (fun w => decide (w.1 = id)) := by
  unfold lateness_body at hb
  by_cases hmat : p.2.matchesAt now = true
  · rw [if_pos hmat] at hb
    cases hcfg : dlookup acc.1.config p.1 with
    | none =>
      rw [hcfg] at hb
      exact Option.noConfusion hb
    | some cfg =>
      rw [hcfg] at hb
      simp only [Option.bind_eq_bind, Option.some_bind] at hb
      by_cases hlate :
          late_condition (dlookup acc.1.last_start p.1) cfg.graceperiod now = true
      · rw [if_pos hlate] at hb
        set st1 : CrabMonitor := { acc.1 with miss_timeout := dinsert acc.1.miss_timeout p.1 (now + cfg.graceperiod) } with hst1
        have hb' : some (st1, acc.2 ++ [(p.1, CrabStatus.LATE)]) = some acc1 := hb
        cases hb'
        refine ⟨rfl, rfl, ?_, ?_⟩
        · exact dlookup_dinsert_ne _ _ _ _ hkp
        · rw [List.filter_append]
          have hsing : [(p.1, CrabStatus.LATE)].filter
              (fun w => decide (w.1 = id)) = [] := by
            have hdec : decide (((p.1, CrabStatus.LATE) : Nat × CrabStatus).1 = id)
                = false := by
              simp only [decide_eq_false_iff_not]
              exact fun hc => hkp hc.symm
            simp [List.filter_cons, hdec]
          rw [hsing, List.append_nil]
      · rw [if_neg hlate] at hb
        have hb' : some acc = some acc1 := hb
        cases hb'
        exact ⟨rfl, rfl, rfl, rfl⟩
  · rw [if_neg hmat] at hb
    have hb' : some acc = some acc1 := hb
    cases hb'
    exact ⟨rfl, rfl, rfl, rfl⟩

/-- Folding the lateness loop over jobs none of which is `id` leaves the
`config`, `last_start`, the `miss_timeout` entry of `id` and the warnings
mentioning `id` unchanged. -/
theorem lateness_fold_skip (now : Nat) (id : Nat) :
    ∀ (l : List (Nat × CrabSchedule)), id ∉ dkeys l →
      ∀ (acc res : CrabMonitor × List (Nat × CrabStatus)),
        l.foldlM (lateness_body now) acc = some res →
        res.1.config = acc.1.config ∧ res.1.last_start = acc.1.last_start ∧
        dlookup res.1.miss_timeout id = dlookup acc.1.miss_timeout id ∧
        res.2.filter (fun w => decide (w.1 = id)) =
          acc.2.filter (fun w => decide (w.1 = id)) := by
  intro l
  induction l with
  | nil =>
    intro _ acc res h
    simp only [List.foldlM_nil] at h
    have h' : some acc = some res := h
    cases h'
    exact ⟨rfl, rfl, rfl, rfl⟩
  | cons p l ih =>
    intro hk acc res h
    simp only [dkeys, List.map_cons, List.mem_cons] at hk
    push_neg at hk
    simp only [List.foldlM_cons] at h
    cases hb : lateness_body now acc p with
    | none =>
      rw [hb] at h
      simp only [Option.bind_eq_bind, Option.none_bind] at h
      exact Option.noConfusion h
    | some acc1 =>
      rw [hb] at h
      simp only [Option.bind_eq_bind, Option.some_bind] at h
      obtain ⟨s1, s2, s3, s4⟩ :=
        lateness_body_other now id p hk.1 acc acc1 hb
      obtain ⟨h1, h2, h3, h4⟩ := ih (by simpa [dkeys] using hk.2) acc1 res h
      exact ⟨h1.trans s1, h2.trans s2, h3.trans s3, h4.trans s4⟩

/-- C5: on the minute-rollover lateness check, a scheduled job whose
schedule matches the current instant and which has no recorded start or a
stale one (`lastStart + graceperiod < now`) has exactly one LATE warning
written through the store, and `miss_timeout[jobid]` is set to
`now + graceperiod`; a matching job with a recent start produces no LATE
warning. -/
theorem C5_lateness_check :
    ∀ (now : Nat) (s s' : CrabMonitor) (ws : List (Nat × CrabStatus))
      (id : Nat) (sc : CrabSchedule) (cfg : JobConfig),
      dnodup s.sched → (id, sc) ∈ s.sched →
      dlookup s.config id = some cfg →
      lateness_check now s = some (s', ws) →
      sc.matchesAt now = true →
      (late_condition (dlookup s.last_start id) cfg.graceperiod now = true →
        ws.filter (fun w => decide (w.1 = id)) = [(id, CrabStatus.LATE)] ∧
        dlookup s'.miss_timeout id = some (now + cfg.graceperiod)) ∧
      (late_condition (dlookup s.last_start id) cfg.graceperiod now = false →
        ws.filter (fun w => decide (w.1 = id)) = []) := by
  intro now s s' ws id sc cfg hn hmem hcfg hrun hmat
  obtain ⟨l1, l2, hsplit⟩ := List.append_of_mem hmem
  unfold lateness_check at hrun
  rw [hsplit] at hrun
  have hkeys : dkeys (l1 ++ (id, sc) :: l2) = dkeys l1 ++ id :: dkeys l2 := by
    simp [dkeys]
  have hnod : (dkeys l1 ++ id :: dkeys l2).Nodup := by
    have hh := hn
    unfold dnodup at hh
    rw [hsplit, hkeys] at hh
    exact hh
  have hid1 : id ∉ dkeys l1 := by
    intro hc
    rcases List.nodup_append.mp hnod with ⟨_, _, hdisj⟩
    exact hdisj hc (List.mem_cons_self id (dkeys l2))
  have hid2 : id ∉ dkeys l2 := by
    rcases List.nodup_append.mp hnod with ⟨_, hc2, _⟩
    rw [List.nodup_cons] at hc2
    exact hc2.1
  rw [foldlM_append_option] at hrun
  cases hacc1 : l1.foldlM (lateness_body now) (s, []) with
  | none =>
    rw [hacc1] at hrun
    exact Option.noConfusion hrun
  | some acc1 =>
    rw [hacc1] at hrun
    simp only [Option.bind_eq_bind, Option.some_bind, List.foldlM_cons] at hrun
    obtain ⟨p1, p2, p3, p4⟩ :=
      lateness_fold_skip now id l1 hid1 (s, []) acc1 hacc1
    have hcfg1 : dlookup acc1.1.config id = some cfg := by
      rw [p1]
      exact hcfg
    have hls1 : dlookup acc1.1.last_start id = dlookup s.last_start id := by
      rw [p2]
    constructor
    · intro hlate
      set st1 : CrabMonitor := { acc1.1 with miss_timeout := dinsert acc1.1.miss_timeout id (now + cfg.graceperiod) } with hst1
      have hbody : lateness_body now acc1 (id, sc) =
          some (st1, acc1.2 ++ [(id, CrabStatus.LATE)]) := by
        unfold lateness_body
        simp only [hmat, if_true, hcfg1, Option.bind_eq_bind, Option.some_bind,
          hls1, hlate, reduceIte]
        rfl
      rw [hbody] at hrun
      simp only [Option.some_bind] at hrun
      obtain ⟨q1, q2, q3, q4⟩ :=
        lateness_fold_skip now id l2 hid2 _ (s', ws) hrun
      constructor
      · rw [q4]
        simp only [List.filter_append]
        rw [show acc1.2.filter (fun w => decide (w.1 = id)) = [] from by
          rw [p4]; rfl]
        simp
      · rw [q3]
        exact dlookup_dinsert_self _ _ _
    · intro hlate
      have hbody : lateness_body now acc1 (id, sc) = some acc1 := by
        unfold lateness_body
        simp only [hmat, if_true, hcfg1, Option.bind_eq_bind, Option.some_bind,
          hls1, hlate, reduceIte]
        rfl
      rw [hbody] at hrun
      simp only [Option.some_bind] at hrun
      obtain ⟨q1, q2, q3, q4⟩ :=
        lateness_fold_skip now id l2 hid2 _ (s', ws) hrun
      rw [q4, p4]
      rfl

def c5_sc : CrabSchedule := ⟨fun _ => true⟩

def c5_s0 : CrabMonitor :=
  { initMonitor with sched := [(1, c5_sc), (2, c5_sc)],
                     config := [(1, cfgDefault), (2, cfgDefault)],
                     last_start := [(2, 990)] }

def c5_res : CrabMonitor × List (Nat × CrabStatus) :=
  (lateness_check 1000 c5_s0).getD (initMonitor, [])

theorem C5_witness :
    (c5_res.2.filter (fun w => decide (w.1 = 1)) = [(1, CrabStatus.LATE)] ∧
     dlookup c5_res.1.miss_timeout 1 = some (1000 + 120)) ∧
    c5_res.2.filter (fun w => decide (w.1 = 2)) = [] := by
  have hmem1 : ((1 : Nat), c5_sc) ∈ c5_s0.sched := List.mem_cons_self _ _
  have hmem2 : ((2 : Nat), c5_sc) ∈ c5_s0.sched :=
    List.mem_cons_of_mem _ (List.mem_cons_self _ _)
  constructor
  · exact (C5_lateness_check 1000 c5_s0 c5_res.1 c5_res.2 1 c5_sc cfgDefault
      (by decide) hmem1 rfl rfl rfl).1 rfl
  · exact (C5_lateness_check 1000 c5_s0 c5_res.1 c5_res.2 2 c5_sc cfgDefault
      (by decide) hmem2 rfl rfl rfl).2 rfl

/-! ## Claim C7: `wait_for_event_since` -/

/-- C7: if any watermark strictly exceeds the caller's id, the call does
not block (wait bound 0); otherwise it blocks for at most
`timeout + jitter`, the jitter being at most 20 seconds; in both cases
the returned value carries the current three watermarks, the status
table and the `num_warning` / `num_error` counters. -/
theorem C7_wait_for_event :
    ∀ (s : CrabMonitor) (startid warnid finishid timeout jitter : Nat),
      jitter ≤ 20 →
      ((s.max_startid > startid ∨ s.max_warnid > warnid ∨
          s.max_finishid > finishid) →
        (wait_for_event_since s startid warnid finishid timeout jitter).1 = 0) ∧
      (¬(s.max_startid > startid ∨ s.max_warnid > warnid ∨
          s.max_finishid > finishid) →
        (wait_for_event_since s startid warnid finishid timeout jitter).1 =
          timeout + jitter ∧
        (wait_for_event_since s startid warnid finishid timeout jitter).1 ≤
          timeout + 20) ∧
      (wait_for_event_since s startid warnid finishid timeout jitter).2 =
        { startid := s.max_startid, warnid := s.max_warnid,
          finishid := s.max_finishid, status := s.status,
          numwarning := s.num_warning, numerror := s.num_error } := by
  intro s a b c t j hj
  refine ⟨?_, ?_, rfl⟩
  · intro h
    unfold wait_for_event_since
    simp [h]
  · intro h
    unfold wait_for_event_since
    constructor
    · simp [h]
    · simp only [if_neg h]
      omega

def c7_s : CrabMonitor :=
  { initMonitor with max_startid := 5, max_warnid := 2, max_finishid := 7 }

theorem C7_witness :
    (wait_for_event_since c7_s 4 2 7 120 13).1 = 0 ∧
    (wait_for_event_since c7_s 5 2 7 120 13).1 = 120 + 13 ∧
    (wait_for_event_since c7_s 5 2 7 120 13).1 ≤ 120 + 20 ∧
    (wait_for_event_since c7_s 4 2 7 120 13).2 =
      { startid := 5, warnid := 2, finishid := 7, status := [],
        numwarning := 0, numerror := 0 } := by
  refine ⟨?_, ?_, ?_, ?_⟩
  · exact (C7_wait_for_event c7_s 4 2 7 120 13 (by decide)).1
      (Or.inl (by decide))
  · exact ((C7_wait_for_event c7_s 5 2 7 120 13 (by decide)).2.1
      (by decide)).1
  · exact ((C7_wait_for_event c7_s 5 2 7 120 13 (by decide)).2.1
      (by decide)).2
  · exact (C7_wait_for_event c7_s 4 2 7 120 13 (by decide)).2.2

/-! ## Claim C10: `wait_for_event_since` before readiness -/

/-- C10: `wait_for_event_since` does not wait on the readiness signal:
with the bulk load still incomplete (`status_ready = false`),
`get_job_status` blocks while `wait_for_event_since` still returns the
current (possibly still-initializing) watermarks, status table and
counters. -/
theorem C10_wait_before_ready :
    ∀ (s : CrabMonitor) (startid warnid finishid timeout jitter : Nat),
      s.status_ready = false →
      get_job_status s = none ∧
      (wait_for_event_since s startid warnid finishid timeout jitter).2 =
        { startid := s.max_startid, warnid := s.max_warnid,
          finishid := s.max_finishid, status := s.status,
          numwarning := s.num_warning, numerror := s.num_error } := by
  intro s a b c t j h
  constructor
  · unfold get_job_status
    rw [h]
    rfl
  · rfl

theorem C10_witness :
    get_job_status initMonitor = none ∧
    (wait_for_event_since initMonitor 0 0 0 120 0).2 =
      { startid := 0, warnid := 0, finishid := 0, status := [],
        numwarning := 0, numerror := 0 } :=
  C10_wait_before_ready initMonitor 0 0 0 120 0 rfl

/-! ## Claim C9: VanishedJob recovery -/

/-- `update_max_id_values` touches only the three watermark counters. -/
theorem update_max_ids_status (e : CrabEvent) (s : CrabMonitor) :
    (update_max_id_values e s).status = s.status := rfl

/-- `_initialize_job` raises `JobDeleted` exactly at the vanished-job
condition, before touching any instance data. -/
theorem initialize_job_vanished (getInfo : Nat → Option JobInfo)
    (parse : String → Option String → Except Unit CrabSchedule)
    (id_ : Nat) (s : CrabMonitor) (h : vanished getInfo id_) :
    initialize_job getInfo parse id_ s = Except.error JobDeleted.deleted := by
  unfold vanished at h
  cases hgi : getInfo id_ with
  | none =>
    unfold initialize_job
    rw [hgi]
  | some info =>
    rw [hgi] at h
    have h' : info.deleted ≠ none := h
    unfold initialize_job
    rw [hgi]
    simp only [ne_eq, h', not_false_eq_true, if_true, reduceIte]

/-- The bulk load catches `JobDeleted` for a vanished job and leaves the
state untouched. -/
theorem bulk_load_job_vanished (getInfo : Nat → Option JobInfo)
    (parse : String → Option String → Except Unit CrabSchedule)
    (getEvents : Nat → List CrabEvent) (s : CrabMonitor) (id_ : Nat)
    (h : vanished getInfo id_) :
    bulk_load_job getInfo parse getEvents s id_ = some s := by
  unfold bulk_load_job
  rw [initialize_job_vanished getInfo parse id_ s h]

/-- C9: the VanishedJob condition is recovered locally at all three
sites: the bulk load skips the job (no record created, the load
continues over the remaining jobs), the poll loop swallows the exception
for an event of an unknown vanished job (only the watermarks advance, no
record is created), and the reconciliation pass's job-set diff skips the
job and carries on. -/
theorem C9_vanished_recovery :
    (∀ (getInfo : Nat → Option JobInfo)
       (parse : String → Option String → Except Unit CrabSchedule)
       (id_ : Nat) (s : CrabMonitor),
        vanished getInfo id_ →
        initialize_job getInfo parse id_ s = Except.error JobDeleted.deleted) ∧
    (∀ (getInfo : Nat → Option JobInfo)
       (parse : String → Option String → Except Unit CrabSchedule)
       (getEvents : Nat → List CrabEvent) (s : CrabMonitor) (id_ : Nat),
        vanished getInfo id_ →
        bulk_load_job getInfo parse getEvents s id_ = some s) ∧
    (∀ (getInfo : Nat → Option JobInfo)
       (parse : String → Option String → Except Unit CrabSchedule)
       (getEvents : Nat → List CrabEvent) (l1 l2 : List Nat) (id_ : Nat)
       (s : CrabMonitor),
        vanished getInfo id_ →
        bulk_load getInfo parse getEvents (l1 ++ id_ :: l2) s =
          bulk_load getInfo parse getEvents (l1 ++ l2) s) ∧
    (∀ (getInfo : Nat → Option JobInfo)
       (parse : String → Option String → Except Unit CrabSchedule)
       (s : CrabMonitor) (e : CrabEvent),
        dlookup s.status e.jobid = none → vanished getInfo e.jobid →
        poll_event_step getInfo parse s e = some (update_max_id_values e s) ∧
        dlookup (update_max_id_values e s).status e.jobid = none) ∧
    (∀ (getInfo : Nat → Option JobInfo)
       (parse : String → Option String → Except Unit CrabSchedule)
       (acc : List Nat × CrabMonitor) (job : JobSummary),
        job.id ∉ acc.1 → vanished getInfo job.id →
        reconcile_job_step getInfo parse acc job = some acc) := by
  refine ⟨initialize_job_vanished, bulk_load_job_vanished, ?_, ?_, ?_⟩
  · intro getInfo parse getEvents l1 l2 id_ s hvan
    unfold bulk_load
    rw [foldlM_append_option, foldlM_append_option]
    cases hb : l1.foldlM
        (fun st id => bulk_load_job getInfo parse getEvents st id) s with
    | none => rfl
    | some b =>
      simp only [Option.some_bind, List.foldlM_cons]
      rw [bulk_load_job_vanished getInfo parse getEvents b id_ hvan]
      simp only [Option.bind_eq_bind, Option.some_bind]
  · intro getInfo parse s e hlook hvan
    have hs1 : (update_max_id_values e s).status = s.status :=
      update_max_ids_status e s
    have hl1 : dlookup (update_max_id_values e s).status e.jobid = none := by
      rw [hs1]
      exact hlook
    constructor
    · unfold poll_event_step
      simp only []
      rw [if_pos hl1,
        initialize_job_vanished getInfo parse e.jobid
          (update_max_id_values e s) hvan]
    · exact hl1
  · intro getInfo parse acc job hnotin hvan
    unfold reconcile_job_step
    rw [if_neg hnotin,
      initialize_job_vanished getInfo parse job.id acc.2 hvan]
    rfl

def c9_getInfo : Nat → Option JobInfo := fun _ => none

def c9_ev : CrabEvent :=
  { id := 6, jobid := 3, type := CrabEventType.WARN,
    status := some CrabStatus.FAIL, datetime := 44 }

theorem C9_witness :
    bulk_load_job c9_getInfo parseFail (fun _ => []) initMonitor 3 =
      some initMonitor ∧
    bulk_load c9_getInfo parseFail (fun _ => []) ([2] ++ 3 :: [4]) initMonitor =
      bulk_load c9_getInfo parseFail (fun _ => []) ([2] ++ [4]) initMonitor ∧
    (poll_event_step c9_getInfo parseFail initMonitor c9_ev =
      some (update_max_id_values c9_ev initMonitor) ∧
     dlookup (update_max_id_values c9_ev initMonitor).status 3 = none) ∧
    reconcile_job_step c9_getInfo parseFail ([], initMonitor) ⟨3, 5⟩ =
      some ([], initMonitor) := by
  refine ⟨?_, ?_, ?_, ?_⟩
  · exact C9_vanished_recovery.2.1 c9_getInfo parseFail (fun _ => [])
      initMonitor 3 trivial
  · exact C9_vanished_recovery.2.2.1 c9_getInfo parseFail (fun _ => [])
      [2] [4] 3 initMonitor trivial
  · exact C9_vanished_recovery.2.2.2.1 c9_getInfo parseFail initMonitor
      c9_ev rfl trivial
  · exact C9_vanished_recovery.2.2.2.2 c9_getInfo parseFail
      ([], initMonitor) ⟨3, 5⟩ (by simp) trivial

/-! ## Claim C8: schedule parse failures -/

/-- A key present in the key list has a binding. -/
theorem dlookup_ne_none_of_mem_keys {α : Type} {m : List (Nat × α)} {k : Nat}
    (h : k ∈ dkeys m) : dlookup m k ≠ none := by
  induction m with
  | nil => simp [dkeys] at h
  | cons p m ih =>
    rw [dlookup_cons]
    simp only [dkeys, List.map_cons, List.mem_cons] at h
    by_cases hp : p.1 = k
    · simp [hp]
    · rw [if_neg hp]
      exact ih (h.resolve_left (fun hc => hp hc.symm))

/-- C8 (amended): a schedule parse failure never escapes.  At first
registration the job is kept (`scheduled = false`), the schedule table is
untouched — so a job with no previous schedule entry is never evaluated
by the lateness check; but when the failure occurs while re-deriving the
schedule of an already-scheduled job, the stale previous `CrabSchedule`
remains in the table (with `scheduled = false` on the record) and the job
is still evaluated — and can still fire — in later lateness checks. -/
theorem C8_parse_failure_amended :
    (∀ (getInfo : Nat → Option JobInfo)
       (parse : String → Option String → Except Unit CrabSchedule)
       (id_ : Nat) (s : CrabMonitor) (info : JobInfo) (t : String) (err : Unit),
        getInfo id_ = some info → info.deleted = none → info.time = some t →
        parse t info.timezone = Except.error err →
        ∃ s', initialize_job getInfo parse id_ s = Except.ok s' ∧
          s'.sched = s.sched ∧
          ∃ r', dlookup s'.status id_ = some r' ∧ r'.scheduled = false) ∧
    (∀ (now : Nat) (s' : CrabMonitor) (id_ : Nat),
        dlookup s'.sched id_ = none →
        ∀ res, lateness_check now s' = some res →
          res.2.filter (fun w => decide (w.1 = id_)) = []) ∧
    (∀ (getInfo : Nat → Option JobInfo)
       (parse : String → Option String → Except Unit CrabSchedule)
       (id_ : Nat) (s s' : CrabMonitor) (rec0 : JobRecord) (info : JobInfo)
       (t : String) (err : Unit),
        dlookup s.status id_ = some rec0 →
        getInfo id_ = some info →
        info.time = some t → parse t info.timezone = Except.error err →
        schedule_job getInfo parse id_ none s = some s' →
        s'.sched = s.sched ∧
        ∃ r', dlookup s'.status id_ = some r' ∧ r'.scheduled = false) := by
  refine ⟨?_, ?_, ?_⟩
  · intro getInfo parse id_ s info t err hgi hdel ht hp
    unfold initialize_job
    rw [hgi]
    simp only [hdel, ne_eq, not_true_eq_false, if_false, reduceIte]
    set rec0 : JobRecord := { status := none, running := false, history := [], installed := info.installed, scheduled := false, reliability := none } with hrec0
    have hlook : dlookup (dinsert s.status id_ rec0) id_ = some rec0 :=
      dlookup_dinsert_self _ _ _
    rw [schedule_job_no_schedule getInfo parse id_ (some info) _ rec0 hlook
          (fun info2 hji => by
             cases hji
             exact Or.inr ⟨t, ht, err, hp⟩)]
    refine ⟨_, rfl, rfl, { rec0 with scheduled := false }, ?_, rfl⟩
    exact dlookup_dinsert_self _ _ _
  · intro now s' id_ hsched res hrun
    have hkeys : id_ ∉ dkeys s'.sched := by
      intro hc
      exact dlookup_ne_none_of_mem_keys hc hsched
    unfold lateness_check at hrun
    obtain ⟨_, _, _, h4⟩ :=
      lateness_fold_skip now id_ s'.sched hkeys (s', []) res hrun
    rw [h4]
    rfl
  · intro getInfo parse id_ s s' rec0 info t err hrec hgi ht hp hrun
    rw [schedule_job_no_schedule getInfo parse id_ none s rec0 hrec
          (fun info2 hji => by
             have : info2 = info := by
               have hji' : getInfo id_ = some info2 := hji
               rw [hgi] at hji'
               exact (Option.some_inj.mp hji').symm
             subst this
             exact Or.inr ⟨t, ht, err, hp⟩)] at hrun
    have hrun' : some ({ s with status := dinsert s.status id_ ({ rec0 with scheduled := false }) }) = some s' := hrun
    cases hrun'
    refine ⟨rfl, { rec0 with scheduled := false }, ?_, rfl⟩
    exact dlookup_dinsert_self _ _ _

def c8_sc : CrabSchedule := ⟨fun _ => true⟩

def c8_s0 : CrabMonitor :=
  { initMonitor with sched := [(1, c8_sc)],
                     status := [(1, { recBlank with scheduled := true })],
                     config := [(1, cfgDefault)] }

def c8_getInfo : Nat → Option JobInfo :=
  fun _ => some { installed := 9, deleted := none, time := some "x y", timezone := none }

/-- C8 counterexample: job 1 had a valid schedule; its definition is
edited and the re-derivation fails to parse.  `_schedule_job` leaves the
old `CrabSchedule` in `self.sched`, and the next lateness check still
evaluates the job and writes a LATE warning — the claim says a job whose
current definition failed to parse is never evaluated there. -/
theorem C8_counterexample :
    ((schedule_job c8_getInfo parseFail 1 none c8_s0).bind
        (fun s1 => (lateness_check 1000 s1).map (fun pr => pr.2))) =
      some [(1, CrabStatus.LATE)] ∧
    some [((1 : Nat), CrabStatus.LATE)] ≠ some ([] : List (Nat × CrabStatus)) :=
  ⟨rfl, by decide⟩

def c8_s1 : CrabMonitor :=
  (schedule_job c8_getInfo parseFail 1 none c8_s0).getD initMonitor

def c8_init2 : CrabMonitor :=
  match initialize_job c8_getInfo parseFail 2 initMonitor with
  | Except.ok s => s
  | Except.error _ => initMonitor

theorem C8_witness :
    (initialize_job c8_getInfo parseFail 2 initMonitor = Except.ok c8_init2 ∧
      c8_init2.sched = initMonitor.sched ∧
      (dlookup c8_init2.status 2).map (fun r => r.scheduled) = some false) ∧
    (lateness_check 1000 initMonitor = some (initMonitor, []) ∧
      ((initMonitor, ([] : List (Nat × CrabStatus))).2.filter
        (fun w => decide (w.1 = 2)) = [])) ∧
    (c8_s1.sched = c8_s0.sched ∧
      (dlookup c8_s1.status 1).map (fun r => r.scheduled) = some false) := by
  refine ⟨?_, ?_, ?_⟩
  · obtain ⟨s', h1, h2, r', h3, h4⟩ :=
      C8_parse_failure_amended.1 c8_getInfo parseFail 2 initMonitor
        { installed := 9, deleted := none, time := some "x y", timezone := none }
        "x y" () rfl rfl rfl rfl
    have hs : s' = c8_init2 :=
      Except.ok.inj (h1.symm.trans
        (rfl : initialize_job c8_getInfo parseFail 2 initMonitor =
          Except.ok c8_init2))
    subst hs
    exact ⟨h1, h2, by simp [h3, h4]⟩
  · exact ⟨rfl, C8_parse_failure_amended.2.1 1000 initMonitor 2 rfl
      (initMonitor, []) rfl⟩
  · obtain ⟨h1, r', h2, h3⟩ :=
      C8_parse_failure_amended.2.2 c8_getInfo parseFail 1 c8_s0 c8_s1
        ({ recBlank with scheduled := true })
        { installed := 9, deleted := none, time := some "x y", timezone := none }
        "x y" () rfl rfl rfl rfl rfl
    exact ⟨h1, by simp [h2, h3]⟩
end Crab
